import Mathlib

/-!
# Verification of the breakwater `SimpleParser`

A shallow embedding of `breakwater-parser/src/implementations/simple.rs`:
the Pixelflut command dispatcher loop, the fixed-width coordinate decoder
(`parse_coordinate` / `parse_pixel_coordinates`), the vectorized hex color
decoder (`simd_unhex`), the per-connection offset state (`SimpleParser`),
and the reply encoding, together with theorems about them.

Bytes are modelled as natural numbers (intended `< 256`); buffers as
`List Nat`.  The unaligned `u64` reads and `u32::to_be()` are modelled for
a little-endian host, which is the byte order the source's integer
command-pattern comparisons are written for.  Machine arithmetic that can
wrap (`<< 28` on `u32` lanes) is taken modulo `2 ^ 32` explicitly.
-/

namespace Breakwater

/-- Read `buffer[k]`.  Positions past the end read 0; the dispatcher's
lookahead guard keeps every read the Rust code performs in bounds. -/
def byteAt (buf : List Nat) (k : Nat) : Nat := buf.getD k 0

/-- The 8-byte window `buffer[i..i + 8]` handed to `simd_unhex`. -/
def slice8 (buf : List Nat) (i : Nat) : List Nat :=
  [byteAt buf i, byteAt buf (i + 1), byteAt buf (i + 2), byteAt buf (i + 3),
   byteAt buf (i + 4), byteAt buf (i + 5), byteAt buf (i + 6), byteAt buf (i + 7)]

/-- Model of `(buffer.as_ptr().add(i) as *const u64).read_unaligned()` on a
little-endian host: eight bytes composed least-significant first. -/
def readU64LE (buf : List Nat) (i : Nat) : Nat :=
  byteAt buf i ||| byteAt buf (i + 1) <<< 8 ||| byteAt buf (i + 2) <<< 16 |||
  byteAt buf (i + 3) <<< 24 ||| byteAt buf (i + 4) <<< 32 ||| byteAt buf (i + 5) <<< 40 |||
  byteAt buf (i + 6) <<< 48 ||| byteAt buf (i + 7) <<< 56

/-- `string_to_number` from `simple.rs`: the first eight bytes of the
pattern composed least-significant first. -/
def string_to_number (input : List Nat) : Nat :=
  byteAt input 7 <<< 56 ||| byteAt input 6 <<< 48 ||| byteAt input 5 <<< 40 |||
  byteAt input 4 <<< 32 ||| byteAt input 3 <<< 24 ||| byteAt input 2 <<< 16 |||
  byteAt input 1 <<< 8 ||| byteAt input 0

/-- `PARSER_LOOKAHEAD`: length of the longest possible command,
`"PX 1234 1234 rrggbbaa\n"`. -/
def PARSER_LOOKAHEAD : Nat := 22

/-- `string_to_number(b"PX \0\0\0\0\0")`. -/
def PX_PAT : Nat := string_to_number [80, 88, 32, 0, 0, 0, 0, 0]

/-- `string_to_number(b"OFFSET \0\0")`. -/
def OFFSET_PAT : Nat := string_to_number [79, 70, 70, 83, 69, 84, 32, 0, 0]

/-- `string_to_number(b"SIZE\0\0\0\0")`. -/
def SIZE_PAT : Nat := string_to_number [83, 73, 90, 69, 0, 0, 0, 0]

/-- `string_to_number(b"HELP\0\0\0\0")`. -/
def HELP_PAT : Nat := string_to_number [72, 69, 76, 80, 0, 0, 0, 0]

/-- The `SHIFT_PATTERN` lane shifts of `simd_unhex`. -/
def SHIFT_PATTERN : List Nat := [4, 0, 12, 8, 20, 16, 28, 24]

/-- The branchless per-lane digit transform of `simd_unhex`:
`(c & 0xf) + (c >> 6) * 9`. -/
def hexLane (c : Nat) : Nat := (c &&& 0xf) + (c >>> 6) * 9

/-- `simd_unhex`: decode 8 bytes, one hex nibble per lane; lane `k` is
shifted by `SHIFT_PATTERN[k]` (in `u32` arithmetic) and the lanes are
or-reduced. -/
def simd_unhex (value : List Nat) : Nat :=
  let shifted (k : Nat) : Nat :=
    (hexLane (byteAt value k) <<< SHIFT_PATTERN.getD k 0) % 2 ^ 32
  shifted 0 ||| shifted 1 ||| shifted 2 ||| shifted 3 |||
  shifted 4 ||| shifted 5 ||| shifted 6 ||| shifted 7

/-- The unrolled 4-iteration digit loop of `parse_coordinate`:
`(result, new index, visited)`. -/
def parse_coordinate_go (buffer : List Nat) : Nat → Nat → Nat → Bool → Nat × Nat × Bool
  | 0, idx, result, visited => (result, idx, visited)
  | pos + 1, idx, result, visited =>
    let digit := byteAt buffer idx
    if 48 ≤ digit ∧ digit ≤ 57 then
      parse_coordinate_go buffer pos (idx + 1) (10 * result + digit - 48) true
    else
      (result, idx, visited)

/-- `parse_coordinate`: up to 4 consecutive ASCII decimal digits at the
cursor, accumulated base 10; reports whether at least one digit was
present. -/
def parse_coordinate (buffer : List Nat) (current_index : Nat) : Nat × Nat × Bool :=
  parse_coordinate_go buffer 4 current_index 0 false

/-- `parse_pixel_coordinates`: an x run, one skipped separator byte, a y
run.  Returns `(x, y, new index, present)`. -/
def parse_pixel_coordinates (buffer : List Nat) (current_index : Nat) :
    Nat × Nat × Nat × Bool :=
  let px := parse_coordinate buffer current_index
  let py := parse_coordinate buffer (px.2.1 + 1)
  (px.1, py.1, py.2.1, px.2.2 && py.2.2)

/-- Modelled from the spec: the external framebuffer collaborator
(`breakwater_core::framebuffer::FrameBuffer` is not among this crate's
sources).  Per the spec it owns a `width × height` grid of packed color
cells; `get` returns the stored color for in-range coordinates and no
value otherwise; `set` stores the given color for in-range coordinates
and is a no-op otherwise; `get_unchecked` reads the cell directly. -/
structure FrameBuffer where
  width : Nat
  height : Nat
  cells : Nat × Nat → Nat

def FrameBuffer.get_width (fb : FrameBuffer) : Nat := fb.width

def FrameBuffer.get_height (fb : FrameBuffer) : Nat := fb.height

def FrameBuffer.set (fb : FrameBuffer) (x y color : Nat) : FrameBuffer :=
  if x < fb.width ∧ y < fb.height then
    { fb with cells := fun p => if p = (x, y) then color else fb.cells p }
  else fb

def FrameBuffer.get (fb : FrameBuffer) (x y : Nat) : Option Nat :=
  if x < fb.width ∧ y < fb.height then some (fb.cells (x, y)) else none

def FrameBuffer.get_unchecked (fb : FrameBuffer) (x y : Nat) : Nat := fb.cells (x, y)

/-- A fresh all-zero framebuffer. -/
def FrameBuffer.init (w h : Nat) : FrameBuffer := ⟨w, h, fun _ => 0⟩

/-- Model of the async output sink (`impl AsyncWriteExt + Send + Unpin`):
an oracle saying which `write_all` calls fail, a call counter, and the
bytes successfully written so far. -/
structure Sink where
  failAt : Nat → Bool
  calls : Nat
  output : List Nat

/-- `stream.write_all(msg).await`, returning whether the write succeeded
together with the updated sink. -/
def Sink.write_all (s : Sink) (msg : List Nat) : Bool × Sink :=
  if s.failAt s.calls then
    (false, { s with calls := s.calls + 1 })
  else
    (true, { s with calls := s.calls + 1, output := s.output ++ msg })

/-- A sink whose writes all succeed. -/
def Sink.good : Sink := ⟨fun _ => false, 0, []⟩

/-- A sink whose writes all fail. -/
def Sink.bad : Sink := ⟨fun _ => true, 0, []⟩

/-- Fuel-indexed digit accumulator for decimal rendering. -/
def decDigitsGo (fuel : Nat) (n : Nat) (acc : List Nat) : List Nat :=
  match fuel with
  | 0 => acc
  | fuel + 1 =>
    if n < 10 then (48 + n) :: acc
    else decDigitsGo fuel (n / 10) ((48 + n % 10) :: acc)

/-- Decimal rendering of `n`, exactly as `format!("{}")` prints a `usize`
(no leading zeros, `"0"` for zero). -/
def decRender (n : Nat) : List Nat := decDigitsGo (n + 1) n []

/-- Lowercase hex digit character for a nibble. -/
def hexDigitByte (d : Nat) : Nat := if d < 10 then 48 + d else 87 + d

/-- `{:06x}`: exactly six lowercase hex digits (the printed value
`rgb.to_be() >> 8` is always `< 2 ^ 24`). -/
def hexRender6 (v : Nat) : List Nat :=
  [hexDigitByte ((v >>> 20) &&& 0xf), hexDigitByte ((v >>> 16) &&& 0xf),
   hexDigitByte ((v >>> 12) &&& 0xf), hexDigitByte ((v >>> 8) &&& 0xf),
   hexDigitByte ((v >>> 4) &&& 0xf), hexDigitByte (v &&& 0xf)]

/-- `u32::to_be()` on a little-endian host: byte swap. -/
def u32_to_be (v : Nat) : Nat :=
  (v &&& 0xff) <<< 24 ||| ((v >>> 8) &&& 0xff) <<< 16 |||
  ((v >>> 16) &&& 0xff) <<< 8 ||| (v >>> 24) &&& 0xff

/-- The bytes of `format!("PX {} {} {:06x}\n", x, y, rgb.to_be() >> 8)`. -/
def pxReply (x y rgb : Nat) : List Nat :=
  [80, 88, 32] ++ decRender x ++ [32] ++ decRender y ++ [32] ++
    hexRender6 (u32_to_be rgb >>> 8) ++ [10]

/-- The bytes of `format!("SIZE {} {}\n", w, h)`. -/
def sizeReply (w h : Nat) : List Nat :=
  [83, 73, 90, 69, 32] ++ decRender w ++ [32] ++ decRender h ++ [10]

/-- Modelled from the spec: `breakwater_core::HELP_TEXT`, a fixed static
help text blob defined outside this crate.  Only the fact that it is
written verbatim matters; a placeholder content stands in for it. -/
def HELP_TEXT : List Nat := [72, 69, 76, 80, 10]

/-- `SimpleParser`: the per-connection decoder state (the connection
offset), `Default`-initialized to `(0, 0)`. -/
structure SimpleParser where
  connection_x_offset : Nat
  connection_y_offset : Nat

/-- `SimpleParser::default()`. -/
def SimpleParser.default : SimpleParser := ⟨0, 0⟩

/-- The parser's single error kind, `Error::WriteToTcpSocket`. -/
inductive ParseError where
  | writeToTcpSocket
deriving DecidableEq

/-- Result of one iteration of the dispatcher loop body: either the loop
continues at cursor `i` with updated state, or the iteration aborted by
returning the write error (the `?` on `SIZE`/`HELP` replies). -/
inductive StepResult where
  | next (st : SimpleParser) (fb : FrameBuffer) (sink : Sink) (last i : Nat)
  | abort (st : SimpleParser) (fb : FrameBuffer) (sink : Sink)

/-- Tail of the `PX` branch, cursor `p` standing after the coordinates
(and after the separator space, when one was seen): a newline here is a
pixel query whose reply-write failure is swallowed (`Err(_) => continue`);
anything else falls through to the one-byte advance with the
last-parsed marker untouched. -/
def pxTail (buffer : List Nat) (st : SimpleParser) (fb : FrameBuffer) (sink : Sink)
    (last : Nat) (x y p : Nat) : StepResult :=
  if byteAt buffer p = 10 then
    match fb.get x y with
    | some rgb =>
      let reply := pxReply (x - st.connection_x_offset) (y - st.connection_y_offset) rgb
      let w := sink.write_all reply
      StepResult.next st fb w.2 p (p + 1)
    | none => StepResult.next st fb sink p (p + 1)
  else
    StepResult.next st fb sink last (p + 1)

/-- The `PX ` branch of the dispatcher, cursor `i` at the `P` (the source
has already checked the three-byte prefix and done `i += 3`). -/
def pxBody (alpha : Bool) (buffer : List Nat) (st : SimpleParser) (fb : FrameBuffer)
    (sink : Sink) (last i : Nat) : StepResult :=
  let c := parse_pixel_coordinates buffer (i + 3)
  let i2 := c.2.2.1
  if c.2.2.2 then
    let x := c.1 + st.connection_x_offset
    let y := c.2.1 + st.connection_y_offset
    if byteAt buffer i2 = 32 then
      let i3 := i2 + 1
      if byteAt buffer (i3 + 6) = 10 then
        let rgba := simd_unhex (slice8 buffer i3)
        StepResult.next st (fb.set x y (rgba &&& 0xffffff)) sink (i3 + 6) (i3 + 7)
      else if byteAt buffer (i3 + 8) = 10 then
        let rgba := simd_unhex (slice8 buffer i3)
        if alpha then
          let alphaC := (rgba >>> 24) &&& 0xff
          if alphaC = 0 ∨ fb.get_width ≤ x ∨ fb.get_height ≤ y then
            StepResult.next st fb sink (i3 + 8) (i3 + 9)
          else
            let alpha_comp := 0xff - alphaC
            let current := fb.get_unchecked x y
            let r := (rgba >>> 16) &&& 0xff
            let g := (rgba >>> 8) &&& 0xff
            let b := rgba &&& 0xff
            let r2 := (((current >>> 24) &&& 0xff) * alpha_comp + r * alphaC) / 0xff
            let g2 := (((current >>> 16) &&& 0xff) * alpha_comp + g * alphaC) / 0xff
            let b2 := (((current >>> 8) &&& 0xff) * alpha_comp + b * alphaC) / 0xff
            StepResult.next st (fb.set x y (r2 <<< 16 ||| g2 <<< 8 ||| b2)) sink
              (i3 + 8) (i3 + 9)
        else
          StepResult.next st (fb.set x y (rgba &&& 0xffffff)) sink (i3 + 8) (i3 + 9)
      else if byteAt buffer (i3 + 2) = 10 then
        let base := simd_unhex (slice8 buffer i3) &&& 0xff
        StepResult.next st (fb.set x y (base <<< 16 ||| base <<< 8 ||| base)) sink
          (i3 + 2) (i3 + 3)
      else
        pxTail buffer st fb sink last x y i3
    else
      pxTail buffer st fb sink last x y i2
  else
    StepResult.next st fb sink last (i2 + 1)

/-- The `OFFSET ` branch, cursor `i` at the `O`.  (Note: in this code the
branch's guard in `parseStep` can never be satisfied, see
`offset_guard_never_matches`.) -/
def offsetBody (buffer : List Nat) (st : SimpleParser) (fb : FrameBuffer) (sink : Sink)
    (last i : Nat) : StepResult :=
  let c := parse_pixel_coordinates buffer (i + 7)
  if c.2.2.2 ∧ byteAt buffer c.2.2.1 = 10 then
    StepResult.next ⟨c.1, c.2.1⟩ fb sink c.2.2.1 c.2.2.1
  else
    StepResult.next st fb sink last (c.2.2.1 + 1)

/-- The `SIZE` branch: reply write failure propagates via `?`. -/
def sizeBody (st : SimpleParser) (fb : FrameBuffer) (sink : Sink)
    (i : Nat) : StepResult :=
  let w := sink.write_all (sizeReply fb.get_width fb.get_height)
  if w.1 then StepResult.next st fb w.2 (i + 3) (i + 4)
  else StepResult.abort st fb w.2

/-- The `HELP` branch: reply write failure propagates via `?`. -/
def helpBody (st : SimpleParser) (fb : FrameBuffer) (sink : Sink)
    (i : Nat) : StepResult :=
  let w := sink.write_all HELP_TEXT
  if w.1 then StepResult.next st fb w.2 (i + 3) (i + 4)
  else StepResult.abort st fb w.2

/-- One iteration of the dispatcher loop body (`simple.rs`, the body of
the `while i < loop_end` loop). -/
def parseStep (alpha : Bool) (buffer : List Nat) (st : SimpleParser) (fb : FrameBuffer)
    (sink : Sink) (last i : Nat) : StepResult :=
  let current_command := readU64LE buffer i
  if current_command &&& 0xffffff = PX_PAT then
    pxBody alpha buffer st fb sink last i
  else if current_command &&& 0xffffffffffff = OFFSET_PAT then
    offsetBody buffer st fb sink last i
  else if current_command &&& 0xffffffff = SIZE_PAT then
    sizeBody st fb sink i
  else if current_command &&& 0xffffffff = HELP_PAT then
    helpBody st fb sink i
  else
    StepResult.next st fb sink last (i + 1)

/-- The overall outcome of `SimpleParser::parse`: final connection state,
framebuffer, sink, and `Ok(last_byte_parsed)` or the write error. -/
structure ParseOutcome where
  st : SimpleParser
  fb : FrameBuffer
  sink : Sink
  result : Except ParseError Nat

/-- The dispatcher loop.  `fuel` bounds the number of iterations; since
every iteration strictly advances the cursor (see the progress theorem
for C9), `buffer.length` iterations always suffice. -/
def parseLoop (alpha : Bool) (buffer : List Nat) (loop_end : Nat) :
    Nat → SimpleParser → FrameBuffer → Sink → Nat → Nat → ParseOutcome
  | 0, st, fb, sink, last, _ => ⟨st, fb, sink, Except.ok last⟩
  | fuel + 1, st, fb, sink, last, i =>
    if i < loop_end then
      match parseStep alpha buffer st fb sink last i with
      | StepResult.next st' fb' sink' last' i' =>
        parseLoop alpha buffer loop_end fuel st' fb' sink' last' i'
      | StepResult.abort st' fb' sink' =>
        ⟨st', fb', sink', Except.error ParseError.writeToTcpSocket⟩
    else ⟨st, fb, sink, Except.ok last⟩

/-- `SimpleParser::parse(buffer, fb, stream)`.  `alpha` selects the
`#[cfg(feature = "alpha")]` build. -/
def SimpleParser.parse (alpha : Bool) (st : SimpleParser) (buffer : List Nat)
    (fb : FrameBuffer) (sink : Sink) : ParseOutcome :=
  parseLoop alpha buffer (buffer.length - PARSER_LOOKAHEAD) buffer.length st fb sink 0 0

/-- Zero padding appended to a test buffer so the lookahead guard admits
the whole command. -/
def padded (cmd : List Nat) : List Nat := cmd ++ List.replicate PARSER_LOOKAHEAD 0

/-! ## Bit-arithmetic helpers -/

theorem lor_eq_add_of_lt {a b : Nat} (k : Nat) (hd : 2 ^ k ∣ a) (hb : b < 2 ^ k) :
    a ||| b = a + b := by
  obtain ⟨c, rfl⟩ := hd
  exact (Nat.mul_add_lt_is_or hb c).symm

theorem lor_left_comm (a b c : Nat) : a ||| (b ||| c) = b ||| (a ||| c) := by
  rw [← Nat.lor_assoc, Nat.lor_comm a b, Nat.lor_assoc]

theorem lor8_reorder (a0 a1 a2 a3 a4 a5 a6 a7 : Nat) :
    a0 ||| a1 ||| a2 ||| a3 ||| a4 ||| a5 ||| a6 ||| a7 =
    a6 ||| a7 ||| a4 ||| a5 ||| a2 ||| a3 ||| a0 ||| a1 := by
  simp only [Nat.lor_assoc]
  simp only [Nat.lor_comm, lor_left_comm]

theorem and_lor_dist (a b m : Nat) : (a ||| b) &&& m = (a &&& m) ||| (b &&& m) := by
  apply Nat.eq_of_testBit_eq
  intro j
  cases h1 : a.testBit j <;> cases h2 : b.testBit j <;> cases h3 : m.testBit j <;>
    simp [Nat.testBit_or, Nat.testBit_and, h1, h2, h3]

theorem lor_cascade (v0 v1 v2 v3 v4 v5 v6 v7 : Nat)
    (h0 : v0 < 16) (h1 : v1 < 16) (h2 : v2 < 16) (h3 : v3 < 16)
    (h4 : v4 < 16) (h5 : v5 < 16) (h7 : v7 < 16) :
    v0 * 16 ||| v1 ||| v2 * 4096 ||| v3 * 256 ||| v4 * 1048576 ||| v5 * 65536 |||
      v6 * 268435456 ||| v7 * 16777216 =
    v6 * 268435456 + v7 * 16777216 + v4 * 1048576 + v5 * 65536 +
      v2 * 4096 + v3 * 256 + v0 * 16 + v1 := by
  have e4 : (2 : Nat) ^ 4 = 16 := by norm_num
  have e8 : (2 : Nat) ^ 8 = 256 := by norm_num
  have e12 : (2 : Nat) ^ 12 = 4096 := by norm_num
  have e16 : (2 : Nat) ^ 16 = 65536 := by norm_num
  have e20 : (2 : Nat) ^ 20 = 1048576 := by norm_num
  have e24 : (2 : Nat) ^ 24 = 16777216 := by norm_num
  have e28 : (2 : Nat) ^ 28 = 268435456 := by norm_num
  have s1 : v6 * 268435456 ||| v7 * 16777216 = v6 * 268435456 + v7 * 16777216 :=
    lor_eq_add_of_lt 28 ⟨v6, by rw [e28]; ring⟩ (by rw [e28]; omega)
  have s2 : v6 * 268435456 + v7 * 16777216 ||| v4 * 1048576 =
      v6 * 268435456 + v7 * 16777216 + v4 * 1048576 :=
    lor_eq_add_of_lt 24 ⟨v6 * 16 + v7, by rw [e24]; ring⟩ (by rw [e24]; omega)
  have s3 : v6 * 268435456 + v7 * 16777216 + v4 * 1048576 ||| v5 * 65536 =
      v6 * 268435456 + v7 * 16777216 + v4 * 1048576 + v5 * 65536 :=
    lor_eq_add_of_lt 20 ⟨v6 * 256 + v7 * 16 + v4, by rw [e20]; ring⟩ (by rw [e20]; omega)
  have s4 : v6 * 268435456 + v7 * 16777216 + v4 * 1048576 + v5 * 65536 ||| v2 * 4096 =
      v6 * 268435456 + v7 * 16777216 + v4 * 1048576 + v5 * 65536 + v2 * 4096 :=
    lor_eq_add_of_lt 16 ⟨v6 * 4096 + v7 * 256 + v4 * 16 + v5, by rw [e16]; ring⟩
      (by rw [e16]; omega)
  have s5 : v6 * 268435456 + v7 * 16777216 + v4 * 1048576 + v5 * 65536 + v2 * 4096 |||
        v3 * 256 =
      v6 * 268435456 + v7 * 16777216 + v4 * 1048576 + v5 * 65536 + v2 * 4096 + v3 * 256 :=
    lor_eq_add_of_lt 12 ⟨v6 * 65536 + v7 * 4096 + v4 * 256 + v5 * 16 + v2, by rw [e12]; ring⟩
      (by rw [e12]; omega)
  have s6 : v6 * 268435456 + v7 * 16777216 + v4 * 1048576 + v5 * 65536 + v2 * 4096 +
        v3 * 256 ||| v0 * 16 =
      v6 * 268435456 + v7 * 16777216 + v4 * 1048576 + v5 * 65536 + v2 * 4096 + v3 * 256 +
        v0 * 16 :=
    lor_eq_add_of_lt 8
      ⟨v6 * 1048576 + v7 * 65536 + v4 * 4096 + v5 * 256 + v2 * 16 + v3, by rw [e8]; ring⟩
      (by rw [e8]; omega)
  have s7 : v6 * 268435456 + v7 * 16777216 + v4 * 1048576 + v5 * 65536 + v2 * 4096 +
        v3 * 256 + v0 * 16 ||| v1 =
      v6 * 268435456 + v7 * 16777216 + v4 * 1048576 + v5 * 65536 + v2 * 4096 + v3 * 256 +
        v0 * 16 + v1 :=
    lor_eq_add_of_lt 4
      ⟨v6 * 16777216 + v7 * 1048576 + v4 * 65536 + v5 * 4096 + v2 * 256 + v3 * 16 + v0,
        by rw [e4]; ring⟩
      (by rw [e4]; omega)
  rw [lor8_reorder, s1, s2, s3, s4, s5, s6, s7]

theorem lor6_reorder (a0 a1 a2 a3 a4 a5 : Nat) :
    a0 ||| a1 ||| a2 ||| a3 ||| a4 ||| a5 = a4 ||| a5 ||| a2 ||| a3 ||| a0 ||| a1 := by
  simp only [Nat.lor_assoc]
  simp only [Nat.lor_comm, lor_left_comm]

theorem lor_cascade6 (v0 v1 v2 v3 v4 v5 : Nat)
    (h0 : v0 < 16) (h1 : v1 < 16) (h2 : v2 < 16) (h3 : v3 < 16) (h5 : v5 < 16) :
    v0 * 16 ||| v1 ||| v2 * 4096 ||| v3 * 256 ||| v4 * 1048576 ||| v5 * 65536 =
    v4 * 1048576 + v5 * 65536 + v2 * 4096 + v3 * 256 + v0 * 16 + v1 := by
  have e4 : (2 : Nat) ^ 4 = 16 := by norm_num
  have e8 : (2 : Nat) ^ 8 = 256 := by norm_num
  have e12 : (2 : Nat) ^ 12 = 4096 := by norm_num
  have e16 : (2 : Nat) ^ 16 = 65536 := by norm_num
  have e20 : (2 : Nat) ^ 20 = 1048576 := by norm_num
  have s1 : v4 * 1048576 ||| v5 * 65536 = v4 * 1048576 + v5 * 65536 :=
    lor_eq_add_of_lt 20 ⟨v4, by rw [e20]; ring⟩ (by rw [e20]; omega)
  have s2 : v4 * 1048576 + v5 * 65536 ||| v2 * 4096 =
      v4 * 1048576 + v5 * 65536 + v2 * 4096 :=
    lor_eq_add_of_lt 16 ⟨v4 * 16 + v5, by rw [e16]; ring⟩ (by rw [e16]; omega)
  have s3 : v4 * 1048576 + v5 * 65536 + v2 * 4096 ||| v3 * 256 =
      v4 * 1048576 + v5 * 65536 + v2 * 4096 + v3 * 256 :=
    lor_eq_add_of_lt 12 ⟨v4 * 256 + v5 * 16 + v2, by rw [e12]; ring⟩ (by rw [e12]; omega)
  have s4 : v4 * 1048576 + v5 * 65536 + v2 * 4096 + v3 * 256 ||| v0 * 16 =
      v4 * 1048576 + v5 * 65536 + v2 * 4096 + v3 * 256 + v0 * 16 :=
    lor_eq_add_of_lt 8 ⟨v4 * 4096 + v5 * 256 + v2 * 16 + v3, by rw [e8]; ring⟩
      (by rw [e8]; omega)
  have s5 : v4 * 1048576 + v5 * 65536 + v2 * 4096 + v3 * 256 + v0 * 16 ||| v1 =
      v4 * 1048576 + v5 * 65536 + v2 * 4096 + v3 * 256 + v0 * 16 + v1 :=
    lor_eq_add_of_lt 4 ⟨v4 * 65536 + v5 * 4096 + v2 * 256 + v3 * 16 + v0, by rw [e4]; ring⟩
      (by rw [e4]; omega)
  rw [lor6_reorder, s1, s2, s3, s4, s5]

/-- Mask a value below `2 ^ 24` by `0xffffff`. -/
theorem and24_of_lt {x : Nat} (hx : x < 16777216) : x &&& 16777215 = x := by
  have h := Nat.and_pow_two_sub_one_of_lt_two_pow (x := x) (n := 24) (by norm_num at *; omega)
  norm_num at h
  exact h

/-- Masking a multiple of `2 ^ 24` by `0xffffff` gives 0. -/
theorem and24_of_dvd {x : Nat} (hx : 2 ^ 24 ∣ x) : x &&& 16777215 = 0 := by
  obtain ⟨c, rfl⟩ := hx
  have h := Nat.and_pow_two_sub_one_eq_mod (2 ^ 24 * c) 24
  norm_num at h ⊢
  omega

/-- Mask a value below `2 ^ 8` by `0xff`. -/
theorem and8_of_lt {x : Nat} (hx : x < 256) : x &&& 255 = x := by
  have h := Nat.and_pow_two_sub_one_of_lt_two_pow (x := x) (n := 8) (by norm_num at *; omega)
  norm_num at h
  exact h

/-- Masking a multiple of `2 ^ 8` by `0xff` gives 0. -/
theorem and8_of_dvd {x : Nat} (hx : 2 ^ 8 ∣ x) : x &&& 255 = 0 := by
  obtain ⟨c, rfl⟩ := hx
  have h := Nat.and_pow_two_sub_one_eq_mod (2 ^ 8 * c) 8
  norm_num at h ⊢
  omega

/-- Mask a value below `2 ^ 32` by `0xffffffff`. -/
theorem and32_of_lt {x : Nat} (hx : x < 4294967296) : x &&& 4294967295 = x := by
  have h := Nat.and_pow_two_sub_one_of_lt_two_pow (x := x) (n := 32) (by norm_num at *; omega)
  norm_num at h
  exact h

/-- Masking a multiple of `2 ^ 32` by `0xffffffff` gives 0. -/
theorem and32_of_dvd {x : Nat} (hx : 2 ^ 32 ∣ x) : x &&& 4294967295 = 0 := by
  obtain ⟨c, rfl⟩ := hx
  have h := Nat.and_pow_two_sub_one_eq_mod (2 ^ 32 * c) 32
  norm_num at h ⊢
  omega

/-! ## Characterizations of `simd_unhex` -/

/-- Fully within-range decode: when every lane's transform value is a
nibble, `simd_unhex` packs the byte pairs of its input in ascending byte
positions of the result. -/
theorem simd_unhex_eq (value : List Nat)
    (h0 : hexLane (byteAt value 0) < 16) (h1 : hexLane (byteAt value 1) < 16)
    (h2 : hexLane (byteAt value 2) < 16) (h3 : hexLane (byteAt value 3) < 16)
    (h4 : hexLane (byteAt value 4) < 16) (h5 : hexLane (byteAt value 5) < 16)
    (h6 : hexLane (byteAt value 6) < 16) (h7 : hexLane (byteAt value 7) < 16) :
    simd_unhex value =
      hexLane (byteAt value 6) * 268435456 + hexLane (byteAt value 7) * 16777216 +
      hexLane (byteAt value 4) * 1048576 + hexLane (byteAt value 5) * 65536 +
      hexLane (byteAt value 2) * 4096 + hexLane (byteAt value 3) * 256 +
      hexLane (byteAt value 0) * 16 + hexLane (byteAt value 1) := by
  simp only [simd_unhex, Nat.shiftLeft_eq]
  norm_num
  have g0 : (SHIFT_PATTERN[0]?).getD 0 = 4 := rfl
  have g1 : (SHIFT_PATTERN[1]?).getD 0 = 0 := rfl
  have g2 : (SHIFT_PATTERN[2]?).getD 0 = 12 := rfl
  have g3 : (SHIFT_PATTERN[3]?).getD 0 = 8 := rfl
  have g4 : (SHIFT_PATTERN[4]?).getD 0 = 20 := rfl
  have g5 : (SHIFT_PATTERN[5]?).getD 0 = 16 := rfl
  have g6 : (SHIFT_PATTERN[6]?).getD 0 = 28 := rfl
  have g7 : (SHIFT_PATTERN[7]?).getD 0 = 24 := rfl
  simp only [g0, g1, g2, g3, g4, g5, g6, g7]
  norm_num
  set v0 := hexLane (byteAt value 0) with hv0
  set v1 := hexLane (byteAt value 1) with hv1
  set v2 := hexLane (byteAt value 2) with hv2
  set v3 := hexLane (byteAt value 3) with hv3
  set v4 := hexLane (byteAt value 4) with hv4
  set v5 := hexLane (byteAt value 5) with hv5
  set v6 := hexLane (byteAt value 6) with hv6
  set v7 := hexLane (byteAt value 7) with hv7
  rw [Nat.mod_eq_of_lt (show v0 * 16 < 4294967296 by omega),
    Nat.mod_eq_of_lt (show v1 < 4294967296 by omega),
    Nat.mod_eq_of_lt (show v2 * 4096 < 4294967296 by omega),
    Nat.mod_eq_of_lt (show v3 * 256 < 4294967296 by omega),
    Nat.mod_eq_of_lt (show v4 * 1048576 < 4294967296 by omega),
    Nat.mod_eq_of_lt (show v5 * 65536 < 4294967296 by omega),
    Nat.mod_eq_of_lt (show v6 * 268435456 < 4294967296 by omega),
    Nat.mod_eq_of_lt (show v7 * 16777216 < 4294967296 by omega)]
  exact lor_cascade v0 v1 v2 v3 v4 v5 v6 v7 h0 h1 h2 h3 h4 h5 h7

/-- The 24-bit-masked decode only depends on the first six lanes: the RGB
set path's `rgba & 0x00ff_ffff` with the trailing `"\n"` and following
byte masked away. -/
theorem simd_unhex_and24 (value : List Nat)
    (h0 : hexLane (byteAt value 0) < 16) (h1 : hexLane (byteAt value 1) < 16)
    (h2 : hexLane (byteAt value 2) < 16) (h3 : hexLane (byteAt value 3) < 16)
    (h4 : hexLane (byteAt value 4) < 16) (h5 : hexLane (byteAt value 5) < 16) :
    simd_unhex value &&& 16777215 =
      hexLane (byteAt value 4) * 1048576 + hexLane (byteAt value 5) * 65536 +
      hexLane (byteAt value 2) * 4096 + hexLane (byteAt value 3) * 256 +
      hexLane (byteAt value 0) * 16 + hexLane (byteAt value 1) := by
  simp only [simd_unhex, Nat.shiftLeft_eq]
  norm_num
  have g0 : (SHIFT_PATTERN[0]?).getD 0 = 4 := rfl
  have g1 : (SHIFT_PATTERN[1]?).getD 0 = 0 := rfl
  have g2 : (SHIFT_PATTERN[2]?).getD 0 = 12 := rfl
  have g3 : (SHIFT_PATTERN[3]?).getD 0 = 8 := rfl
  have g4 : (SHIFT_PATTERN[4]?).getD 0 = 20 := rfl
  have g5 : (SHIFT_PATTERN[5]?).getD 0 = 16 := rfl
  have g6 : (SHIFT_PATTERN[6]?).getD 0 = 28 := rfl
  have g7 : (SHIFT_PATTERN[7]?).getD 0 = 24 := rfl
  simp only [g0, g1, g2, g3, g4, g5, g6, g7]
  norm_num
  set v0 := hexLane (byteAt value 0) with hv0
  set v1 := hexLane (byteAt value 1) with hv1
  set v2 := hexLane (byteAt value 2) with hv2
  set v3 := hexLane (byteAt value 3) with hv3
  set v4 := hexLane (byteAt value 4) with hv4
  set v5 := hexLane (byteAt value 5) with hv5
  set v6 := hexLane (byteAt value 6) with hv6
  set v7 := hexLane (byteAt value 7) with hv7
  rw [Nat.mod_eq_of_lt (show v0 * 16 < 4294967296 by omega),
    Nat.mod_eq_of_lt (show v1 < 4294967296 by omega),
    Nat.mod_eq_of_lt (show v2 * 4096 < 4294967296 by omega),
    Nat.mod_eq_of_lt (show v3 * 256 < 4294967296 by omega),
    Nat.mod_eq_of_lt (show v4 * 1048576 < 4294967296 by omega),
    Nat.mod_eq_of_lt (show v5 * 65536 < 4294967296 by omega)]
  simp only [and_lor_dist]
  rw [and24_of_lt (show v0 * 16 < 16777216 by omega),
    and24_of_lt (show v1 < 16777216 by omega),
    and24_of_lt (show v2 * 4096 < 16777216 by omega),
    and24_of_lt (show v3 * 256 < 16777216 by omega),
    and24_of_lt (show v4 * 1048576 < 16777216 by omega),
    and24_of_lt (show v5 * 65536 < 16777216 by omega),
    and24_of_dvd ((Nat.dvd_mod_iff ⟨256, by norm_num⟩).mpr
      ⟨v6 * 16, by rw [show (2 : Nat) ^ 24 = 16777216 by norm_num]; ring⟩),
    and24_of_dvd ((Nat.dvd_mod_iff ⟨256, by norm_num⟩).mpr
      ⟨v7, by rw [show (2 : Nat) ^ 24 = 16777216 by norm_num]; ring⟩)]
  simp only [Nat.or_zero]
  exact lor_cascade6 v0 v1 v2 v3 v4 v5 h0 h1 h2 h3 h5

/-- The 8-bit-masked decode only depends on the first two lanes: the gray
set path's `simd_unhex(..) & 0xff`. -/
theorem simd_unhex_and8 (value : List Nat)
    (h0 : hexLane (byteAt value 0) < 16) (h1 : hexLane (byteAt value 1) < 16) :
    simd_unhex value &&& 255 = hexLane (byteAt value 0) * 16 + hexLane (byteAt value 1) := by
  simp only [simd_unhex, Nat.shiftLeft_eq]
  norm_num
  have g0 : (SHIFT_PATTERN[0]?).getD 0 = 4 := rfl
  have g1 : (SHIFT_PATTERN[1]?).getD 0 = 0 := rfl
  have g2 : (SHIFT_PATTERN[2]?).getD 0 = 12 := rfl
  have g3 : (SHIFT_PATTERN[3]?).getD 0 = 8 := rfl
  have g4 : (SHIFT_PATTERN[4]?).getD 0 = 20 := rfl
  have g5 : (SHIFT_PATTERN[5]?).getD 0 = 16 := rfl
  have g6 : (SHIFT_PATTERN[6]?).getD 0 = 28 := rfl
  have g7 : (SHIFT_PATTERN[7]?).getD 0 = 24 := rfl
  simp only [g0, g1, g2, g3, g4, g5, g6, g7]
  norm_num
  set v0 := hexLane (byteAt value 0) with hv0
  set v1 := hexLane (byteAt value 1) with hv1
  set v2 := hexLane (byteAt value 2) with hv2
  set v3 := hexLane (byteAt value 3) with hv3
  set v4 := hexLane (byteAt value 4) with hv4
  set v5 := hexLane (byteAt value 5) with hv5
  set v6 := hexLane (byteAt value 6) with hv6
  set v7 := hexLane (byteAt value 7) with hv7
  rw [Nat.mod_eq_of_lt (show v0 * 16 < 4294967296 by omega),
    Nat.mod_eq_of_lt (show v1 < 4294967296 by omega)]
  simp only [and_lor_dist]
  have d8 : ((2 : Nat) ^ 8 : Nat) ∣ 4294967296 := ⟨16777216, by norm_num⟩
  have e8 : (2 : Nat) ^ 8 = 256 := by norm_num
  rw [and8_of_lt (show v0 * 16 < 256 by omega),
    and8_of_lt (show v1 < 256 by omega),
    and8_of_dvd ((Nat.dvd_mod_iff d8).mpr ⟨v2 * 16, by rw [e8]; ring⟩),
    and8_of_dvd ((Nat.dvd_mod_iff d8).mpr ⟨v3, by rw [e8]; ring⟩),
    and8_of_dvd ((Nat.dvd_mod_iff d8).mpr ⟨v4 * 4096, by rw [e8]; ring⟩),
    and8_of_dvd ((Nat.dvd_mod_iff d8).mpr ⟨v5 * 256, by rw [e8]; ring⟩),
    and8_of_dvd ((Nat.dvd_mod_iff d8).mpr ⟨v6 * 1048576, by rw [e8]; ring⟩),
    and8_of_dvd ((Nat.dvd_mod_iff d8).mpr ⟨v7 * 65536, by rw [e8]; ring⟩)]
  simp only [Nat.or_zero]
  have e4 : (2 : Nat) ^ 4 = 16 := by norm_num
  exact lor_eq_add_of_lt 4 ⟨v0, by rw [e4]; ring⟩ (by rw [e4]; omega)

/-! ## Characterizations of the command-pattern guards -/

/-- The `PX ` guard: for byte-valued buffers, the masked `u64` comparison
is exactly a three-byte comparison at the cursor. -/
theorem px_guard_iff (buf : List Nat) (i : Nat)
    (h0 : byteAt buf i < 256) (h1 : byteAt buf (i + 1) < 256) (h2 : byteAt buf (i + 2) < 256) :
    (readU64LE buf i &&& 16777215 = PX_PAT) ↔
      (byteAt buf i = 80 ∧ byteAt buf (i + 1) = 88 ∧ byteAt buf (i + 2) = 32) := by
  simp only [readU64LE, Nat.shiftLeft_eq]
  norm_num
  set b0 := byteAt buf i with hb0
  set b1 := byteAt buf (i + 1) with hb1
  set b2 := byteAt buf (i + 2) with hb2
  set b3 := byteAt buf (i + 3) with hb3
  set b4 := byteAt buf (i + 4) with hb4
  set b5 := byteAt buf (i + 5) with hb5
  set b6 := byteAt buf (i + 6) with hb6
  set b7 := byteAt buf (i + 7) with hb7
  simp only [and_lor_dist]
  have e24 : (2 : Nat) ^ 24 = 16777216 := by norm_num
  rw [and24_of_lt (show b0 < 16777216 by omega),
    and24_of_lt (show b1 * 256 < 16777216 by omega),
    and24_of_lt (show b2 * 65536 < 16777216 by omega),
    and24_of_dvd ⟨b3, by rw [e24]; ring⟩,
    and24_of_dvd ⟨b4 * 256, by rw [e24]; ring⟩,
    and24_of_dvd ⟨b5 * 65536, by rw [e24]; ring⟩,
    and24_of_dvd ⟨b6 * 16777216, by rw [e24]; ring⟩,
    and24_of_dvd ⟨b7 * 4294967296, by rw [e24]; ring⟩]
  simp only [Nat.or_zero]
  have e8 : (2 : Nat) ^ 8 = 256 := by norm_num
  have e16 : (2 : Nat) ^ 16 = 65536 := by norm_num
  have s1 : b1 * 256 ||| b0 = b1 * 256 + b0 :=
    lor_eq_add_of_lt 8 ⟨b1, by rw [e8]; ring⟩ (by rw [e8]; omega)
  have s2 : b2 * 65536 ||| (b1 * 256 + b0) = b2 * 65536 + (b1 * 256 + b0) :=
    lor_eq_add_of_lt 16 ⟨b2, by rw [e16]; ring⟩ (by rw [e16]; omega)
  rw [Nat.lor_comm b0 (b1 * 256), s1, Nat.lor_comm _ (b2 * 65536), s2]
  have hpx : PX_PAT = 2119760 := by decide
  rw [hpx]
  omega

/-- For byte-valued buffers the masked 32-bit guard comparison used for
`SIZE` and `HELP` is a four-byte comparison at the cursor. -/
theorem readU64LE_and32 (buf : List Nat) (i : Nat)
    (h0 : byteAt buf i < 256) (h1 : byteAt buf (i + 1) < 256)
    (h2 : byteAt buf (i + 2) < 256) (h3 : byteAt buf (i + 3) < 256) :
    readU64LE buf i &&& 4294967295 =
      byteAt buf (i + 3) * 16777216 + byteAt buf (i + 2) * 65536 +
        byteAt buf (i + 1) * 256 + byteAt buf i := by
  simp only [readU64LE, Nat.shiftLeft_eq]
  norm_num
  set b0 := byteAt buf i with hb0
  set b1 := byteAt buf (i + 1) with hb1
  set b2 := byteAt buf (i + 2) with hb2
  set b3 := byteAt buf (i + 3) with hb3
  set b4 := byteAt buf (i + 4) with hb4
  set b5 := byteAt buf (i + 5) with hb5
  set b6 := byteAt buf (i + 6) with hb6
  set b7 := byteAt buf (i + 7) with hb7
  simp only [and_lor_dist]
  have e32 : (2 : Nat) ^ 32 = 4294967296 := by norm_num
  rw [and32_of_lt (show b0 < 4294967296 by omega),
    and32_of_lt (show b1 * 256 < 4294967296 by omega),
    and32_of_lt (show b2 * 65536 < 4294967296 by omega),
    and32_of_lt (show b3 * 16777216 < 4294967296 by omega),
    and32_of_dvd ⟨b4, by rw [e32]; ring⟩,
    and32_of_dvd ⟨b5 * 256, by rw [e32]; ring⟩,
    and32_of_dvd ⟨b6 * 65536, by rw [e32]; ring⟩,
    and32_of_dvd ⟨b7 * 16777216, by rw [e32]; ring⟩]
  simp only [Nat.or_zero]
  have e8 : (2 : Nat) ^ 8 = 256 := by norm_num
  have e16 : (2 : Nat) ^ 16 = 65536 := by norm_num
  have e24 : (2 : Nat) ^ 24 = 16777216 := by norm_num
  have s1 : b1 * 256 ||| b0 = b1 * 256 + b0 :=
    lor_eq_add_of_lt 8 ⟨b1, by rw [e8]; ring⟩ (by rw [e8]; omega)
  have s2 : b2 * 65536 ||| (b1 * 256 + b0) = b2 * 65536 + (b1 * 256 + b0) :=
    lor_eq_add_of_lt 16 ⟨b2, by rw [e16]; ring⟩ (by rw [e16]; omega)
  have s3 : b3 * 16777216 ||| (b2 * 65536 + (b1 * 256 + b0)) =
      b3 * 16777216 + (b2 * 65536 + (b1 * 256 + b0)) :=
    lor_eq_add_of_lt 24 ⟨b3, by rw [e24]; ring⟩ (by rw [e24]; omega)
  rw [Nat.lor_comm b0 (b1 * 256), s1, Nat.lor_comm _ (b2 * 65536), s2,
    Nat.lor_comm _ (b3 * 16777216), s3]
  omega

/-- The `SIZE` guard as a four-byte comparison. -/
theorem size_guard_iff (buf : List Nat) (i : Nat)
    (h0 : byteAt buf i < 256) (h1 : byteAt buf (i + 1) < 256)
    (h2 : byteAt buf (i + 2) < 256) (h3 : byteAt buf (i + 3) < 256) :
    (readU64LE buf i &&& 4294967295 = SIZE_PAT) ↔
      (byteAt buf i = 83 ∧ byteAt buf (i + 1) = 73 ∧ byteAt buf (i + 2) = 90 ∧
        byteAt buf (i + 3) = 69) := by
  rw [readU64LE_and32 buf i h0 h1 h2 h3, show SIZE_PAT = 1163544915 by decide]
  omega

/-- The `HELP` guard as a four-byte comparison. -/
theorem help_guard_iff (buf : List Nat) (i : Nat)
    (h0 : byteAt buf i < 256) (h1 : byteAt buf (i + 1) < 256)
    (h2 : byteAt buf (i + 2) < 256) (h3 : byteAt buf (i + 3) < 256) :
    (readU64LE buf i &&& 4294967295 = HELP_PAT) ↔
      (byteAt buf i = 72 ∧ byteAt buf (i + 1) = 69 ∧ byteAt buf (i + 2) = 76 ∧
        byteAt buf (i + 3) = 80) := by
  rw [readU64LE_and32 buf i h0 h1 h2 h3, show HELP_PAT = 1347175752 by decide]
  omega

/-- The `OFFSET ` guard can never be satisfied: the mask
`0x0000_ffff_ffff_ffff` zeroes the seventh byte of the read, but the
pattern `string_to_number(b"OFFSET \0\0")` contains the space `0x20`
there, so the branch at `simple.rs:149` is unreachable. -/
theorem offset_guard_never_matches (buf : List Nat) (i : Nat) :
    readU64LE buf i &&& 281474976710655 ≠ OFFSET_PAT := by
  intro h
  have hle : readU64LE buf i &&& 281474976710655 ≤ 281474976710655 := Nat.and_le_right
  have : OFFSET_PAT = 9099855981332047 := by decide
  omega

/-! ## Coordinate decoder: cursor monotonicity -/

theorem parse_coordinate_go_idx_le (buffer : List Nat) (fuel : Nat) :
    ∀ (idx result : Nat) (visited : Bool),
      idx ≤ (parse_coordinate_go buffer fuel idx result visited).2.1 := by
  induction fuel with
  | zero => intro idx r v; exact Nat.le_refl idx
  | succ n ih =>
    intro idx r v
    simp only [parse_coordinate_go]
    split
    · exact Nat.le_trans (Nat.le_succ idx) (ih (idx + 1) _ true)
    · exact Nat.le_refl idx

theorem parse_coordinate_idx_le (buffer : List Nat) (p : Nat) :
    p ≤ (parse_coordinate buffer p).2.1 :=
  parse_coordinate_go_idx_le buffer 4 p 0 false

theorem parse_pixel_coordinates_idx (buffer : List Nat) (p : Nat) :
    p + 1 ≤ (parse_pixel_coordinates buffer p).2.2.1 := by
  simp only [parse_pixel_coordinates]
  have h1 := parse_coordinate_idx_le buffer p
  have h2 := parse_coordinate_idx_le buffer ((parse_coordinate buffer p).2.1 + 1)
  omega

/-! ## Progress: every loop iteration strictly advances the cursor -/

theorem pxBody_progress {alpha : Bool} {buffer : List Nat} {st : SimpleParser}
    {fb : FrameBuffer} {sink : Sink} {last i : Nat}
    {st' : SimpleParser} {fb' : FrameBuffer} {sink' : Sink} {last' i' : Nat}
    (h : pxBody alpha buffer st fb sink last i = StepResult.next st' fb' sink' last' i') :
    i < i' := by
  have hc := parse_pixel_coordinates_idx buffer (i + 3)
  simp only [pxBody, pxTail] at h
  set c := parse_pixel_coordinates buffer (i + 3) with hcdef
  split at h
  · split at h
    · split at h
      · cases h; omega
      · split at h
        · split at h
          · split at h
            · cases h; omega
            · cases h; omega
          · cases h; omega
        · split at h
          · cases h; omega
          · split at h
            · split at h
              · cases h; omega
              · cases h; omega
            · cases h; omega
    · split at h
      · split at h
        · cases h; omega
        · cases h; omega
      · cases h; omega
  · cases h; omega

theorem offsetBody_progress {buffer : List Nat} {st : SimpleParser}
    {fb : FrameBuffer} {sink : Sink} {last i : Nat}
    {st' : SimpleParser} {fb' : FrameBuffer} {sink' : Sink} {last' i' : Nat}
    (h : offsetBody buffer st fb sink last i = StepResult.next st' fb' sink' last' i') :
    i < i' := by
  have hc := parse_pixel_coordinates_idx buffer (i + 7)
  simp only [offsetBody] at h
  set c := parse_pixel_coordinates buffer (i + 7) with hcdef
  split at h
  · cases h; omega
  · cases h; omega

theorem parseStep_progress {alpha : Bool} {buffer : List Nat} {st : SimpleParser}
    {fb : FrameBuffer} {sink : Sink} {last i : Nat}
    {st' : SimpleParser} {fb' : FrameBuffer} {sink' : Sink} {last' i' : Nat}
    (h : parseStep alpha buffer st fb sink last i = StepResult.next st' fb' sink' last' i') :
    i < i' := by
  simp only [parseStep] at h
  split at h
  · exact pxBody_progress h
  · split at h
    · exact offsetBody_progress h
    · split at h
      · simp only [sizeBody] at h
        split at h
        · cases h; omega
        · cases h
      · split at h
        · simp only [helpBody] at h
          split at h
          · cases h; omega
          · cases h
        · cases h; omega

/-! ## Loop unfolding -/

theorem parseLoop_exit {alpha : Bool} {buffer : List Nat} {loop_end : Nat} (fuel : Nat)
    {st : SimpleParser} {fb : FrameBuffer} {sink : Sink} {last i : Nat}
    (h : ¬ i < loop_end) :
    parseLoop alpha buffer loop_end fuel st fb sink last i =
      ⟨st, fb, sink, Except.ok last⟩ := by
  cases fuel <;> simp [parseLoop, h]

theorem parseLoop_go {alpha : Bool} {buffer : List Nat} {loop_end : Nat} (fuel : Nat)
    {st : SimpleParser} {fb : FrameBuffer} {sink : Sink} {last i : Nat}
    (h : i < loop_end) :
    parseLoop alpha buffer loop_end (fuel + 1) st fb sink last i =
      match parseStep alpha buffer st fb sink last i with
      | StepResult.next st' fb' sink' last' i' =>
        parseLoop alpha buffer loop_end fuel st' fb' sink' last' i'
      | StepResult.abort st' fb' sink' =>
        ⟨st', fb', sink', Except.error ParseError.writeToTcpSocket⟩ := by
  simp [parseLoop, h]

/-! ## The last-parsed-byte marker invariant -/

/-- Every entry of the buffer is a byte. -/
def ByteBuf (buf : List Nat) : Prop := ∀ b ∈ buf, b < 256

instance (buf : List Nat) : Decidable (ByteBuf buf) := by
  unfold ByteBuf; infer_instance

theorem byteAt_lt {buf : List Nat} (hB : ByteBuf buf) (k : Nat) : byteAt buf k < 256 := by
  unfold byteAt
  by_cases hk : k < buf.length
  · rw [List.getD_eq_getElem?_getD, List.getElem?_eq_getElem hk]
    exact hB _ (List.getElem_mem hk)
  · rw [List.getD_eq_getElem?_getD, List.getElem?_eq_none (by omega)]
    simp

/-- The four bytes `"SIZE"` appear at position `j`. -/
def sizeKeyAt (buf : List Nat) (j : Nat) : Prop :=
  byteAt buf j = 83 ∧ byteAt buf (j + 1) = 73 ∧ byteAt buf (j + 2) = 90 ∧
    byteAt buf (j + 3) = 69

/-- The four bytes `"HELP"` appear at position `j`. -/
def helpKeyAt (buf : List Nat) (j : Nat) : Prop :=
  byteAt buf j = 72 ∧ byteAt buf (j + 1) = 69 ∧ byteAt buf (j + 2) = 76 ∧
    byteAt buf (j + 3) = 80

theorem pxBody_last {alpha : Bool} {buffer : List Nat} {st : SimpleParser}
    {fb : FrameBuffer} {sink : Sink} {last i : Nat}
    {st' : SimpleParser} {fb' : FrameBuffer} {sink' : Sink} {last' i' : Nat}
    (h : pxBody alpha buffer st fb sink last i = StepResult.next st' fb' sink' last' i') :
    last' = last ∨ byteAt buffer last' = 10 := by
  simp only [pxBody, pxTail] at h
  split at h
  · split at h
    · split at h
      · cases h; right; assumption
      · split at h
        · split at h
          · split at h
            · cases h; right; assumption
            · cases h; right; assumption
          · cases h; right; assumption
        · split at h
          · cases h; right; assumption
          · split at h
            · split at h
              · cases h; right; assumption
              · cases h; right; assumption
            · cases h; left; rfl
    · split at h
      · split at h
        · cases h; right; assumption
        · cases h; right; assumption
      · cases h; left; rfl
  · cases h; left; rfl

theorem offsetBody_last {buffer : List Nat} {st : SimpleParser}
    {fb : FrameBuffer} {sink : Sink} {last i : Nat}
    {st' : SimpleParser} {fb' : FrameBuffer} {sink' : Sink} {last' i' : Nat}
    (h : offsetBody buffer st fb sink last i = StepResult.next st' fb' sink' last' i') :
    last' = last ∨ byteAt buffer last' = 10 := by
  simp only [offsetBody] at h
  split at h
  · cases h
    right
    rename_i hcond
    exact hcond.2
  · cases h; left; rfl

/-- Whenever an iteration updates the marker, the new marker points at a
newline, or at the last byte of a `SIZE`/`HELP` keyword whose first byte
is at the iteration's cursor. -/
theorem parseStep_last_cases {alpha : Bool} {buffer : List Nat} {st : SimpleParser}
    {fb : FrameBuffer} {sink : Sink} {last i : Nat}
    {st' : SimpleParser} {fb' : FrameBuffer} {sink' : Sink} {last' i' : Nat}
    (hB : ByteBuf buffer)
    (h : parseStep alpha buffer st fb sink last i = StepResult.next st' fb' sink' last' i') :
    last' = last ∨ byteAt buffer last' = 10 ∨
      (last' = i + 3 ∧ (sizeKeyAt buffer i ∨ helpKeyAt buffer i)) := by
  simp only [parseStep] at h
  split at h
  · rcases pxBody_last h with h1 | h2
    · exact Or.inl h1
    · exact Or.inr (Or.inl h2)
  · split at h
    · rcases offsetBody_last h with h1 | h2
      · exact Or.inl h1
      · exact Or.inr (Or.inl h2)
    · split at h
      · rename_i hsz
        have hkey := (size_guard_iff buffer i (byteAt_lt hB i) (byteAt_lt hB (i + 1))
          (byteAt_lt hB (i + 2)) (byteAt_lt hB (i + 3))).mp hsz
        simp only [sizeBody] at h
        split at h
        · cases h
          exact Or.inr (Or.inr ⟨rfl, Or.inl hkey⟩)
        · cases h
      · split at h
        · rename_i hhp
          have hkey := (help_guard_iff buffer i (byteAt_lt hB i) (byteAt_lt hB (i + 1))
            (byteAt_lt hB (i + 2)) (byteAt_lt hB (i + 3))).mp hhp
          simp only [helpBody] at h
          split at h
          · cases h
            exact Or.inr (Or.inr ⟨rfl, Or.inr hkey⟩)
          · cases h
        · cases h
          exact Or.inl rfl

/-- Invariant for the returned `last_byte_parsed` value: either nothing
was ever completed (0), or it points at a newline byte, or at the final
byte of a `SIZE`/`HELP` keyword that starts before `loop_end`. -/
def LastInv (buffer : List Nat) (loop_end r : Nat) : Prop :=
  r = 0 ∨ byteAt buffer r = 10 ∨
    (3 ≤ r ∧ r - 3 < loop_end ∧ (sizeKeyAt buffer (r - 3) ∨ helpKeyAt buffer (r - 3)))

theorem parseLoop_last_inv {alpha : Bool} {buffer : List Nat} {loop_end : Nat}
    (hB : ByteBuf buffer) :
    ∀ (fuel : Nat) (st : SimpleParser) (fb : FrameBuffer) (sink : Sink) (last i r : Nat),
      LastInv buffer loop_end last →
      (parseLoop alpha buffer loop_end fuel st fb sink last i).result = Except.ok r →
      LastInv buffer loop_end r := by
  intro fuel
  induction fuel with
  | zero =>
    intro st fb sink last i r hL hr
    simp only [parseLoop] at hr
    cases hr
    exact hL
  | succ n ih =>
    intro st fb sink last i r hL hr
    by_cases hi : i < loop_end
    · rw [parseLoop_go n hi] at hr
      cases hstep : parseStep alpha buffer st fb sink last i with
      | next st' fb' sink' last' i' =>
        rw [hstep] at hr
        refine ih st' fb' sink' last' i' r ?_ hr
        rcases parseStep_last_cases hB hstep with h1 | h2 | h3
        · rw [h1]; exact hL
        · exact Or.inr (Or.inl h2)
        · refine Or.inr (Or.inr ⟨by omega, by omega, ?_⟩)
          have : last' - 3 = i := by omega
          rw [this]
          exact h3.2
      | abort st' fb' sink' =>
        rw [hstep] at hr
        cases hr
    · rw [parseLoop_exit (n + 1) hi] at hr
      cases hr
      exact hL

/-! ## Buffer index arithmetic -/

theorem byteAt_append_left {l1 l2 : List Nat} {k : Nat} (h : k < l1.length) :
    byteAt (l1 ++ l2) k = byteAt l1 k := by
  simp only [byteAt, List.getD_eq_getElem?_getD, List.getElem?_append_left h]

theorem byteAt_append_right {l1 l2 : List Nat} {k : Nat} (h : l1.length ≤ k) :
    byteAt (l1 ++ l2) k = byteAt l2 (k - l1.length) := by
  simp only [byteAt, List.getD_eq_getElem?_getD, List.getElem?_append_right h]

theorem byteAt_mem {l : List Nat} {k : Nat} (h : k < l.length) : byteAt l k ∈ l := by
  simp only [byteAt, List.getD_eq_getElem?_getD, List.getElem?_eq_getElem h, Option.getD_some]
  exact List.getElem_mem h

/-! ## Digit-run characterization of the coordinate decoder -/

theorem pcg_succ (buffer : List Nat) (fuel idx result : Nat) (visited : Bool) :
    parse_coordinate_go buffer (fuel + 1) idx result visited =
      if 48 ≤ byteAt buffer idx ∧ byteAt buffer idx ≤ 57 then
        parse_coordinate_go buffer fuel (idx + 1) (10 * result + byteAt buffer idx - 48) true
      else (result, idx, visited) := rfl

/-- The accumulated decimal value of a digit run, exactly as the decoder
accumulates it. -/
def decValue (ds : List Nat) : Nat := ds.foldl (fun a d => 10 * a + d - 48) 0

/-- `parse_coordinate` on a run of 1–4 ASCII digits followed (when the
run is shorter than 4) by a non-digit: it consumes exactly the run and
returns its decimal value with the presence flag set. -/
theorem parse_coordinate_run (buffer : List Nat) (p : Nat) (ds : List Nat)
    (hne : ds ≠ []) (hlen : ds.length ≤ 4)
    (hds : ∀ d ∈ ds, 48 ≤ d ∧ d ≤ 57)
    (hbytes : ∀ j, j < ds.length → byteAt buffer (p + j) = ds.getD j 0)
    (hstop : ds.length < 4 →
      ¬(48 ≤ byteAt buffer (p + ds.length) ∧ byteAt buffer (p + ds.length) ≤ 57)) :
    parse_coordinate buffer p = (decValue ds, p + ds.length, true) := by
  rcases ds with _ | ⟨a, _ | ⟨b, _ | ⟨c, _ | ⟨d, _ | ⟨e, rest⟩⟩⟩⟩⟩
  · exact absurd rfl hne
  · have ha := hds a (by simp)
    have h0 := hbytes 0 (by simp)
    have hs := hstop (by simp)
    norm_num at hs
    simp only [List.getD_eq_getElem?_getD] at h0
    simp only [Nat.add_zero, List.getElem?_cons_zero, Option.getD_some] at h0
    show parse_coordinate_go buffer (3 + 1) p 0 false = _
    rw [pcg_succ, h0, if_pos (by omega)]
    show parse_coordinate_go buffer (2 + 1) (p + 1) _ true = _
    rw [pcg_succ, if_neg (by omega)]
    simp only [decValue, List.foldl]
    rfl
  · have ha := hds a (by simp)
    have hb := hds b (by simp)
    have h0 := hbytes 0 (by simp)
    have h1 := hbytes 1 (by simp)
    have hs := hstop (by simp)
    norm_num at hs
    simp only [List.getD_eq_getElem?_getD, Nat.add_zero, List.getElem?_cons_zero,
      List.getElem?_cons_succ, Option.getD_some] at h0 h1
    show parse_coordinate_go buffer (3 + 1) p 0 false = _
    rw [pcg_succ, h0, if_pos (by omega)]
    show parse_coordinate_go buffer (2 + 1) (p + 1) _ true = _
    rw [pcg_succ, show p + 1 + 1 = p + 2 by omega, h1, if_pos (by omega)]
    show parse_coordinate_go buffer (1 + 1) (p + 2) _ true = _
    rw [pcg_succ, if_neg (by omega)]
    simp only [decValue, List.foldl]
    rfl
  · have ha := hds a (by simp)
    have hb := hds b (by simp)
    have hc := hds c (by simp)
    have h0 := hbytes 0 (by simp)
    have h1 := hbytes 1 (by simp)
    have h2 := hbytes 2 (by simp)
    have hs := hstop (by simp)
    norm_num at hs
    simp only [List.getD_eq_getElem?_getD, Nat.add_zero, List.getElem?_cons_zero,
      List.getElem?_cons_succ, Option.getD_some] at h0 h1 h2
    show parse_coordinate_go buffer (3 + 1) p 0 false = _
    rw [pcg_succ, h0, if_pos (by omega)]
    show parse_coordinate_go buffer (2 + 1) (p + 1) _ true = _
    rw [pcg_succ, show p + 1 + 1 = p + 2 by omega, h1, if_pos (by omega)]
    show parse_coordinate_go buffer (1 + 1) (p + 2) _ true = _
    rw [pcg_succ, show p + 2 + 1 = p + 3 by omega, h2, if_pos (by omega)]
    show parse_coordinate_go buffer (0 + 1) (p + 3) _ true = _
    rw [pcg_succ, if_neg (by omega)]
    simp only [decValue, List.foldl]
    rfl
  · have ha := hds a (by simp)
    have hb := hds b (by simp)
    have hc := hds c (by simp)
    have hd := hds d (by simp)
    have h0 := hbytes 0 (by simp)
    have h1 := hbytes 1 (by simp)
    have h2 := hbytes 2 (by simp)
    have h3 := hbytes 3 (by simp)
    simp only [List.getD_eq_getElem?_getD, Nat.add_zero, List.getElem?_cons_zero,
      List.getElem?_cons_succ, Option.getD_some] at h0 h1 h2 h3
    show parse_coordinate_go buffer (3 + 1) p 0 false = _
    rw [pcg_succ, h0, if_pos (by omega)]
    show parse_coordinate_go buffer (2 + 1) (p + 1) _ true = _
    rw [pcg_succ, show p + 1 + 1 = p + 2 by omega, h1, if_pos (by omega)]
    show parse_coordinate_go buffer (1 + 1) (p + 2) _ true = _
    rw [pcg_succ, show p + 2 + 1 = p + 3 by omega, h2, if_pos (by omega)]
    show parse_coordinate_go buffer (0 + 1) (p + 3) _ true = _
    rw [pcg_succ, show p + 3 + 1 = p + 4 by omega, h3, if_pos (by omega)]
    simp only [parse_coordinate_go, decValue, List.foldl]
    rfl
  · simp at hlen

/-- The paired decoder on an x digit run, one separator byte (unchecked),
and a y digit run. -/
theorem parse_pixel_coordinates_run (buffer : List Nat) (p : Nat) (xs ys : List Nat)
    (hxne : xs ≠ []) (hxlen : xs.length ≤ 4)
    (hxd : ∀ d ∈ xs, 48 ≤ d ∧ d ≤ 57)
    (hxbytes : ∀ j, j < xs.length → byteAt buffer (p + j) = xs.getD j 0)
    (hxstop : xs.length < 4 →
      ¬(48 ≤ byteAt buffer (p + xs.length) ∧ byteAt buffer (p + xs.length) ≤ 57))
    (hyne : ys ≠ []) (hylen : ys.length ≤ 4)
    (hyd : ∀ d ∈ ys, 48 ≤ d ∧ d ≤ 57)
    (hybytes : ∀ j, j < ys.length →
      byteAt buffer (p + xs.length + 1 + j) = ys.getD j 0)
    (hystop : ys.length < 4 →
      ¬(48 ≤ byteAt buffer (p + xs.length + 1 + ys.length) ∧
        byteAt buffer (p + xs.length + 1 + ys.length) ≤ 57)) :
    parse_pixel_coordinates buffer p =
      (decValue xs, decValue ys, p + xs.length + 1 + ys.length, true) := by
  simp only [parse_pixel_coordinates]
  rw [parse_coordinate_run buffer p xs hxne hxlen hxd hxbytes hxstop]
  rw [parse_coordinate_run buffer (p + xs.length + 1) ys hyne hylen hyd hybytes hystop]
  rfl

/-! ## Spec-side reference functions for hex decoding -/

/-- An ASCII hex digit (either case). -/
def isHexDigitByte (c : Nat) : Prop :=
  (48 ≤ c ∧ c ≤ 57) ∨ (65 ≤ c ∧ c ≤ 70) ∨ (97 ≤ c ∧ c ≤ 102)

instance (c : Nat) : Decidable (isHexDigitByte c) := by
  unfold isHexDigitByte; infer_instance

/-- Reference value of an ASCII hex digit. -/
def hexVal (c : Nat) : Nat :=
  if 48 ≤ c ∧ c ≤ 57 then c - 48
  else if 65 ≤ c ∧ c ≤ 70 then c - 55
  else if 97 ≤ c ∧ c ≤ 102 then c - 87
  else 0

/-- Reference big-endian hex-string-to-integer conversion. -/
def hexRefBE (s : List Nat) : Nat := s.foldl (fun a c => 16 * a + hexVal c) 0

/-- The value with successive hex-digit pairs at ascending byte
positions (pair `k` of the string in byte `k` of the integer). -/
def pairValueLE : List Nat → Nat
  | c0 :: c1 :: rest => hexVal c0 * 16 + hexVal c1 + 256 * pairValueLE rest
  | _ => 0

/-- The color codec's decode of a run of hex digits: `simd_unhex`
restricted to those digit positions (remaining lanes zero-padded, result
masked to the run's nibble count, as the gray/RGB/RGBA paths do). -/
def codecDecode (s : List Nat) : Nat :=
  simd_unhex (s ++ List.replicate (8 - s.length) 0) &&& (2 ^ (4 * s.length) - 1)

theorem hexLane_eq_hexVal_bounded :
    ∀ c, c < 103 → isHexDigitByte c → hexLane c = hexVal c ∧ hexVal c < 16 := by decide

theorem hexLane_eq_hexVal {c : Nat} (h : isHexDigitByte c) : hexLane c = hexVal c :=
  (hexLane_eq_hexVal_bounded c (by rcases h with h | h | h <;> omega) h).1

theorem hexVal_lt {c : Nat} (h : isHexDigitByte c) : hexVal c < 16 :=
  (hexLane_eq_hexVal_bounded c (by rcases h with h | h | h <;> omega) h).2

theorem hexLane_lt_of_hex {c : Nat} (h : isHexDigitByte c) : hexLane c < 16 := by
  rw [hexLane_eq_hexVal h]; exact hexVal_lt h

theorem hexLane_hexDigitByte : ∀ d, d < 16 → hexLane (hexDigitByte d) = d := by decide

theorem hexDigitByte_lt : ∀ d, d < 16 → hexDigitByte d < 256 := by decide

theorem hexLane_zero : hexLane 0 = 0 := by decide

/-! ## Bitmask-to-arithmetic conversions -/

theorem and15_eq (x : Nat) : x &&& 15 = x % 16 := by
  have h := Nat.and_pow_two_sub_one_eq_mod x 4
  norm_num at h
  exact h

theorem and255_eq (x : Nat) : x &&& 255 = x % 256 := by
  have h := Nat.and_pow_two_sub_one_eq_mod x 8
  norm_num at h
  exact h

theorem shr4_eq (x : Nat) : x >>> 4 = x / 16 := by
  rw [Nat.shiftRight_eq_div_pow]

theorem shr8_eq (x : Nat) : x >>> 8 = x / 256 := by
  rw [Nat.shiftRight_eq_div_pow]

theorem shr12_eq (x : Nat) : x >>> 12 = x / 4096 := by
  rw [Nat.shiftRight_eq_div_pow]

theorem shr16_eq (x : Nat) : x >>> 16 = x / 65536 := by
  rw [Nat.shiftRight_eq_div_pow]

theorem shr20_eq (x : Nat) : x >>> 20 = x / 1048576 := by
  rw [Nat.shiftRight_eq_div_pow]

theorem shr24_eq (x : Nat) : x >>> 24 = x / 16777216 := by
  rw [Nat.shiftRight_eq_div_pow]

/-- `u32::to_be` as byte arithmetic. -/
theorem u32_to_be_eq (v : Nat) :
    u32_to_be v = v % 256 * 16777216 + v / 256 % 256 * 65536 +
      v / 65536 % 256 * 256 + v / 16777216 % 256 := by
  unfold u32_to_be
  simp only [Nat.shiftLeft_eq, and255_eq, shr8_eq, shr16_eq, shr24_eq]
  norm_num
  have e8 : (2 : Nat) ^ 8 = 256 := by norm_num
  have e16 : (2 : Nat) ^ 16 = 65536 := by norm_num
  have e24 : (2 : Nat) ^ 24 = 16777216 := by norm_num
  have m0 : v % 256 < 256 := Nat.mod_lt _ (by omega)
  have m1 : v / 256 % 256 < 256 := Nat.mod_lt _ (by omega)
  have m2 : v / 65536 % 256 < 256 := Nat.mod_lt _ (by omega)
  have m3 : v / 16777216 % 256 < 256 := Nat.mod_lt _ (by omega)
  have s1 : v % 256 * 16777216 ||| v / 256 % 256 * 65536 =
      v % 256 * 16777216 + v / 256 % 256 * 65536 :=
    lor_eq_add_of_lt 24 ⟨v % 256, by rw [e24]; ring⟩ (by rw [e24]; omega)
  have s2 : v % 256 * 16777216 + v / 256 % 256 * 65536 ||| v / 65536 % 256 * 256 =
      v % 256 * 16777216 + v / 256 % 256 * 65536 + v / 65536 % 256 * 256 :=
    lor_eq_add_of_lt 16 ⟨v % 256 * 256 + v / 256 % 256, by rw [e16]; ring⟩
      (by rw [e16]; omega)
  have s3 : v % 256 * 16777216 + v / 256 % 256 * 65536 + v / 65536 % 256 * 256 |||
        v / 16777216 % 256 =
      v % 256 * 16777216 + v / 256 % 256 * 65536 + v / 65536 % 256 * 256 +
        v / 16777216 % 256 :=
    lor_eq_add_of_lt 8 ⟨v % 256 * 65536 + v / 256 % 256 * 256 + v / 65536 % 256,
      by rw [e8]; ring⟩ (by rw [e8]; omega)
  rw [s1, s2, s3]

/-- Byte decomposition arithmetic behind `stored_reply_eq`, with the six
nibbles abstracted. -/
theorem stored_reply_arith (a b c d e f v : Nat)
    (ha : a < 16) (hb : b < 16) (hc : c < 16) (hd : d < 16) (he : e < 16) (hf : f < 16)
    (hrec : a * 1048576 + b * 65536 + c * 4096 + d * 256 + e * 16 + f = v) :
    ((e * 1048576 + f * 65536 + c * 4096 + d * 256 + a * 16 + b) % 256 * 16777216 +
      (e * 1048576 + f * 65536 + c * 4096 + d * 256 + a * 16 + b) / 256 % 256 * 65536 +
      (e * 1048576 + f * 65536 + c * 4096 + d * 256 + a * 16 + b) / 65536 % 256 * 256 +
      (e * 1048576 + f * 65536 + c * 4096 + d * 256 + a * 16 + b) / 16777216 % 256) / 256 =
      v := by
  have h0 : (e * 1048576 + f * 65536 + c * 4096 + d * 256 + a * 16 + b) % 256 =
      a * 16 + b := by omega
  have h1 : (e * 1048576 + f * 65536 + c * 4096 + d * 256 + a * 16 + b) / 256 % 256 =
      c * 16 + d := by clear h0 hrec; omega
  have h2 : (e * 1048576 + f * 65536 + c * 4096 + d * 256 + a * 16 + b) / 65536 % 256 =
      e * 16 + f := by clear h0 h1 hrec; omega
  have h3 : (e * 1048576 + f * 65536 + c * 4096 + d * 256 + a * 16 + b) / 16777216 % 256 =
      0 := by clear h0 h1 h2 hrec; omega
  rw [h0, h1, h2, h3]
  omega

/-- The value the RGB set path stores for the wire color `v`, and the
fact that the reply encoder's `rgb.to_be() >> 8` recovers `v` from it. -/
theorem stored_reply_eq {v : Nat} (hv : v < 16777216) :
    u32_to_be (v / 16 % 16 * 1048576 + v % 16 * 65536 + v / 4096 % 16 * 4096 +
      v / 256 % 16 * 256 + v / 1048576 % 16 * 16 + v / 65536 % 16) >>> 8 = v := by
  rw [u32_to_be_eq, shr8_eq]
  exact stored_reply_arith (v / 1048576 % 16) (v / 65536 % 16) (v / 4096 % 16)
    (v / 256 % 16) (v / 16 % 16) (v % 16) v (Nat.mod_lt _ (by omega))
    (Nat.mod_lt _ (by omega)) (Nat.mod_lt _ (by omega)) (Nat.mod_lt _ (by omega))
    (Nat.mod_lt _ (by omega)) (Nat.mod_lt _ (by omega)) (by omega)

/-! ## Decimal-rendering facts -/

theorem dgo_succ (f n : Nat) (acc : List Nat) :
    decDigitsGo (f + 1) n acc =
      if n < 10 then (48 + n) :: acc
      else decDigitsGo f (n / 10) ((48 + n % 10) :: acc) := rfl

theorem decDigitsGo_fuel : ∀ (f : Nat), 1 ≤ f → ∀ (n : Nat) (acc : List Nat) (g : Nat),
    1 ≤ g → n < 10 ^ f → n < 10 ^ g → decDigitsGo f n acc = decDigitsGo g n acc := by
  intro f
  induction f with
  | zero => omega
  | succ m ih =>
    intro _ n acc g hg hf hgn
    obtain ⟨g2, rfl⟩ : ∃ g2, g = g2 + 1 := ⟨g - 1, by omega⟩
    by_cases h10 : n < 10
    · rw [dgo_succ, dgo_succ, if_pos h10, if_pos h10]
    · have hm : 1 ≤ m := by
        by_contra hcon
        have hm0 : m = 0 := by omega
        subst hm0
        norm_num at hf
        omega
      have hg2 : 1 ≤ g2 := by
        by_contra hcon
        have hg0 : g2 = 0 := by omega
        subst hg0
        norm_num at hgn
        omega
      rw [dgo_succ, dgo_succ, if_neg h10, if_neg h10]
      refine ih hm (n / 10) _ g2 hg2 ?_ ?_
      · rw [Nat.div_lt_iff_lt_mul (by omega)]
        calc n < 10 ^ (m + 1) := hf
        _ = 10 ^ m * 10 := by rw [Nat.pow_succ]
      · rw [Nat.div_lt_iff_lt_mul (by omega)]
        calc n < 10 ^ (g2 + 1) := hgn
        _ = 10 ^ g2 * 10 := by rw [Nat.pow_succ]

theorem decRender_eq_fuel {n : Nat} (g : Nat) (hg : 1 ≤ g) (hn : n < 10 ^ g) :
    decRender n = decDigitsGo g n [] := by
  unfold decRender
  refine decDigitsGo_fuel (n + 1) (by omega) n [] g hg ?_ hn
  calc n < 10 ^ n := Nat.lt_pow_self (by omega) n
  _ ≤ 10 ^ (n + 1) := Nat.pow_le_pow_right (by omega) (by omega)

theorem decRender_len1 {n : Nat} (h : n < 10) : decRender n = [48 + n] := by
  rw [decRender_eq_fuel 1 (by omega) (by norm_num; omega)]
  show decDigitsGo (0 + 1) n [] = _
  rw [dgo_succ, if_pos h]

theorem decRender_len2 {n : Nat} (h1 : 10 ≤ n) (h2 : n < 100) :
    decRender n = [48 + n / 10, 48 + n % 10] := by
  rw [decRender_eq_fuel 2 (by omega) (by norm_num; omega)]
  show decDigitsGo (1 + 1) n [] = _
  rw [dgo_succ, if_neg (by omega)]
  show decDigitsGo (0 + 1) (n / 10) _ = _
  rw [dgo_succ, if_pos (by omega)]

theorem decRender_len3 {n : Nat} (h1 : 100 ≤ n) (h2 : n < 1000) :
    decRender n = [48 + n / 10 / 10, 48 + n / 10 % 10, 48 + n % 10] := by
  rw [decRender_eq_fuel 3 (by omega) (by norm_num; omega)]
  show decDigitsGo (2 + 1) n [] = _
  rw [dgo_succ, if_neg (by omega)]
  show decDigitsGo (1 + 1) (n / 10) _ = _
  rw [dgo_succ, if_neg (by omega)]
  show decDigitsGo (0 + 1) (n / 10 / 10) _ = _
  rw [dgo_succ, if_pos (by omega)]

theorem decRender_len4 {n : Nat} (h1 : 1000 ≤ n) (h2 : n < 10000) :
    decRender n =
      [48 + n / 10 / 10 / 10, 48 + n / 10 / 10 % 10, 48 + n / 10 % 10, 48 + n % 10] := by
  rw [decRender_eq_fuel 4 (by omega) (by norm_num; omega)]
  show decDigitsGo (3 + 1) n [] = _
  rw [dgo_succ, if_neg (by omega)]
  show decDigitsGo (2 + 1) (n / 10) _ = _
  rw [dgo_succ, if_neg (by omega)]
  show decDigitsGo (1 + 1) (n / 10 / 10) _ = _
  rw [dgo_succ, if_neg (by omega)]
  show decDigitsGo (0 + 1) (n / 10 / 10 / 10) _ = _
  rw [dgo_succ, if_pos (by omega)]

theorem decRender_digits {n : Nat} (hn : n < 10000) :
    ∀ d ∈ decRender n, 48 ≤ d ∧ d ≤ 57 := by
  intro d hd
  by_cases c1 : n < 10
  · rw [decRender_len1 c1] at hd
    simp at hd
    omega
  · by_cases c2 : n < 100
    · rw [decRender_len2 (by omega) c2] at hd
      simp at hd
      rcases hd with h | h <;> omega
    · by_cases c3 : n < 1000
      · rw [decRender_len3 (by omega) c3] at hd
        simp at hd
        rcases hd with h | h | h <;> omega
      · rw [decRender_len4 (by omega) hn] at hd
        simp at hd
        rcases hd with h | h | h | h <;> omega

theorem decRender_length {n : Nat} (hn : n < 10000) :
    1 ≤ (decRender n).length ∧ (decRender n).length ≤ 4 := by
  by_cases c1 : n < 10
  · rw [decRender_len1 c1]; simp
  · by_cases c2 : n < 100
    · rw [decRender_len2 (by omega) c2]; simp
    · by_cases c3 : n < 1000
      · rw [decRender_len3 (by omega) c3]; simp
      · rw [decRender_len4 (by omega) hn]; simp

theorem decRender_ne_nil {n : Nat} (hn : n < 10000) : decRender n ≠ [] := by
  have := decRender_length hn
  intro h
  rw [h] at this
  simp at this

theorem decValue_decRender {n : Nat} (hn : n < 10000) : decValue (decRender n) = n := by
  by_cases c1 : n < 10
  · rw [decRender_len1 c1]
    simp only [decValue, List.foldl]
    omega
  · by_cases c2 : n < 100
    · rw [decRender_len2 (by omega) c2]
      simp only [decValue, List.foldl]
      omega
    · by_cases c3 : n < 1000
      · rw [decRender_len3 (by omega) c3]
        simp only [decValue, List.foldl]
        omega
      · rw [decRender_len4 (by omega) hn]
        simp only [decValue, List.foldl]
        omega

/-! ## Symbolic evaluation of the `PX` branch -/

theorem byteAt_cons_zero (a : Nat) (l : List Nat) : byteAt (a :: l) 0 = a := rfl

theorem byteAt_cons_succ (a : Nat) (l : List Nat) (k : Nat) :
    byteAt (a :: l) (k + 1) = byteAt l k := rfl

/-- `pxBody` on a well-formed set command `PX <xs><sep><ys> <hs>\n` at
cursor 0, for arbitrary digit runs `xs`, `ys` (1-4 digits), an arbitrary
non-digit separator byte `sep`, six in-range color bytes `hs`, and an
arbitrary continuation `rest`. -/
theorem pxBody_set_general (alpha : Bool) (st : SimpleParser) (fb : FrameBuffer)
    (sink : Sink) (last : Nat) (xs ys hs rest : List Nat) (sep : Nat)
    (hxne : xs ≠ []) (hxlen : xs.length ≤ 4) (hxd : ∀ d ∈ xs, 48 ≤ d ∧ d ≤ 57)
    (hyne : ys ≠ []) (hylen : ys.length ≤ 4) (hyd : ∀ d ∈ ys, 48 ≤ d ∧ d ≤ 57)
    (hsep : ¬(48 ≤ sep ∧ sep ≤ 57))
    (hhlen : hs.length = 6) (hhx : ∀ c ∈ hs, hexLane c < 16) :
    pxBody alpha ([80, 88, 32] ++ (xs ++ sep :: (ys ++ 32 :: (hs ++ 10 :: rest))))
        st fb sink last 0 =
      StepResult.next st
        (fb.set (decValue xs + st.connection_x_offset)
          (decValue ys + st.connection_y_offset)
          (hexLane (byteAt hs 4) * 1048576 + hexLane (byteAt hs 5) * 65536 +
            hexLane (byteAt hs 2) * 4096 + hexLane (byteAt hs 3) * 256 +
            hexLane (byteAt hs 0) * 16 + hexLane (byteAt hs 1)))
        sink (xs.length + ys.length + 11) (xs.length + ys.length + 12) := by
  set B := [80, 88, 32] ++ (xs ++ sep :: (ys ++ 32 :: (hs ++ 10 :: rest))) with hB
  have htail : ∀ k,
      byteAt B (3 + k) = byteAt (xs ++ sep :: (ys ++ 32 :: (hs ++ 10 :: rest))) k := by
    intro k
    rw [hB, byteAt_append_right (by simp)]
    congr 1
    simp
  have hxbytes : ∀ j, j < xs.length → byteAt B (3 + j) = xs.getD j 0 := by
    intro j hj
    rw [htail j, byteAt_append_left hj]
    rfl
  have hsepB : byteAt B (3 + xs.length) = sep := by
    rw [htail, byteAt_append_right (Nat.le_refl _), Nat.sub_self]
    rfl
  have hybytes : ∀ j, j < ys.length → byteAt B (3 + xs.length + 1 + j) = ys.getD j 0 := by
    intro j hj
    rw [show 3 + xs.length + 1 + j = 3 + (xs.length + (j + 1)) by omega, htail,
      byteAt_append_right (by omega), show xs.length + (j + 1) - xs.length = j + 1 by omega,
      byteAt_cons_succ, byteAt_append_left hj]
    rfl
  have hspace : byteAt B (3 + xs.length + 1 + ys.length) = 32 := by
    rw [show 3 + xs.length + 1 + ys.length = 3 + (xs.length + (ys.length + 1)) by omega, htail,
      byteAt_append_right (by omega),
      show xs.length + (ys.length + 1) - xs.length = ys.length + 1 by omega,
      byteAt_cons_succ, byteAt_append_right (Nat.le_refl _), Nat.sub_self]
    rfl
  have hcolor : ∀ k, byteAt B (3 + xs.length + 1 + ys.length + 1 + k) =
      byteAt (hs ++ 10 :: rest) k := by
    intro k
    rw [show 3 + xs.length + 1 + ys.length + 1 + k =
        3 + (xs.length + (ys.length + 1 + k + 1)) by omega, htail,
      byteAt_append_right (by omega),
      show xs.length + (ys.length + 1 + k + 1) - xs.length = ys.length + 1 + k + 1 by omega,
      byteAt_cons_succ,
      show ys.length + 1 + k = ys.length + (k + 1) by omega,
      byteAt_append_right (by omega),
      show ys.length + (k + 1) - ys.length = k + 1 by omega,
      byteAt_cons_succ]
  have hl : ∀ k, k < 6 → byteAt B (3 + xs.length + 1 + ys.length + 1 + k) = byteAt hs k := by
    intro k hk
    rw [hcolor k, byteAt_append_left (by omega)]
  have hl0 : byteAt B (3 + xs.length + 1 + ys.length + 1) = byteAt hs 0 := by
    have := hl 0 (by omega)
    simpa using this
  have hnl : byteAt B (3 + xs.length + 1 + ys.length + 1 + 6) = 10 := by
    rw [hcolor 6, byteAt_append_right (by omega), hhlen, Nat.sub_self]
    rfl
  have hmem : ∀ k, k < 6 → hexLane (byteAt hs k) < 16 := by
    intro k hk
    exact hhx _ (byteAt_mem (by omega))
  have hrun := parse_pixel_coordinates_run B 3 xs ys hxne hxlen hxd hxbytes
    (fun _ => by rw [hsepB]; exact hsep) hyne hylen hyd hybytes
    (fun _ => by rw [hspace]; omega)
  simp only [pxBody, Nat.zero_add]
  rw [hrun]
  dsimp only
  rw [if_pos rfl, hspace, if_pos rfl, hnl, if_pos rfl]
  have hs24 := simd_unhex_and24 (slice8 B (3 + xs.length + 1 + ys.length + 1))
    (by show hexLane (byteAt B (3 + xs.length + 1 + ys.length + 1)) < 16
        rw [hl0]; exact hmem 0 (by omega))
    (by show hexLane (byteAt B (3 + xs.length + 1 + ys.length + 1 + 1)) < 16
        rw [hl 1 (by omega)]; exact hmem 1 (by omega))
    (by show hexLane (byteAt B (3 + xs.length + 1 + ys.length + 1 + 2)) < 16
        rw [hl 2 (by omega)]; exact hmem 2 (by omega))
    (by show hexLane (byteAt B (3 + xs.length + 1 + ys.length + 1 + 3)) < 16
        rw [hl 3 (by omega)]; exact hmem 3 (by omega))
    (by show hexLane (byteAt B (3 + xs.length + 1 + ys.length + 1 + 4)) < 16
        rw [hl 4 (by omega)]; exact hmem 4 (by omega))
    (by show hexLane (byteAt B (3 + xs.length + 1 + ys.length + 1 + 5)) < 16
        rw [hl 5 (by omega)]; exact hmem 5 (by omega))
  rw [show (16777215 : Nat) = 0xffffff from rfl] at hs24
  rw [hs24]
  rw [show byteAt (slice8 B (3 + xs.length + 1 + ys.length + 1)) 0 =
      byteAt B (3 + xs.length + 1 + ys.length + 1) from rfl, hl0]
  rw [show byteAt (slice8 B (3 + xs.length + 1 + ys.length + 1)) 1 =
      byteAt B (3 + xs.length + 1 + ys.length + 1 + 1) from rfl, hl 1 (by omega)]
  rw [show byteAt (slice8 B (3 + xs.length + 1 + ys.length + 1)) 2 =
      byteAt B (3 + xs.length + 1 + ys.length + 1 + 2) from rfl, hl 2 (by omega)]
  rw [show byteAt (slice8 B (3 + xs.length + 1 + ys.length + 1)) 3 =
      byteAt B (3 + xs.length + 1 + ys.length + 1 + 3) from rfl, hl 3 (by omega)]
  rw [show byteAt (slice8 B (3 + xs.length + 1 + ys.length + 1)) 4 =
      byteAt B (3 + xs.length + 1 + ys.length + 1 + 4) from rfl, hl 4 (by omega)]
  rw [show byteAt (slice8 B (3 + xs.length + 1 + ys.length + 1)) 5 =
      byteAt B (3 + xs.length + 1 + ys.length + 1 + 5) from rfl, hl 5 (by omega)]
  rw [show 3 + xs.length + 1 + ys.length + 1 + 6 = xs.length + ys.length + 11 by omega,
    show 3 + xs.length + 1 + ys.length + 1 + 7 = xs.length + ys.length + 12 by omega]

/-- `pxBody` on a well-formed pixel query `PX <xs> <ys>\n` at cursor 0:
the pixel-query path, whose reply-write failure is swallowed. -/
theorem pxBody_get_general (alpha : Bool) (st : SimpleParser) (fb : FrameBuffer)
    (sink : Sink) (last : Nat) (xs ys rest : List Nat)
    (hxne : xs ≠ []) (hxlen : xs.length ≤ 4) (hxd : ∀ d ∈ xs, 48 ≤ d ∧ d ≤ 57)
    (hyne : ys ≠ []) (hylen : ys.length ≤ 4) (hyd : ∀ d ∈ ys, 48 ≤ d ∧ d ≤ 57) :
    pxBody alpha ([80, 88, 32] ++ (xs ++ 32 :: (ys ++ 10 :: rest))) st fb sink last 0 =
      match fb.get (decValue xs + st.connection_x_offset)
          (decValue ys + st.connection_y_offset) with
      | some rgb =>
        StepResult.next st fb
          (sink.write_all (pxReply (decValue xs) (decValue ys) rgb)).2
          (xs.length + ys.length + 4) (xs.length + ys.length + 5)
      | none =>
        StepResult.next st fb sink (xs.length + ys.length + 4) (xs.length + ys.length + 5) := by
  set B := [80, 88, 32] ++ (xs ++ 32 :: (ys ++ 10 :: rest)) with hB
  have htail : ∀ k, byteAt B (3 + k) = byteAt (xs ++ 32 :: (ys ++ 10 :: rest)) k := by
    intro k
    rw [hB, byteAt_append_right (by simp)]
    congr 1
    simp
  have hxbytes : ∀ j, j < xs.length → byteAt B (3 + j) = xs.getD j 0 := by
    intro j hj
    rw [htail j, byteAt_append_left hj]
    rfl
  have hsepB : byteAt B (3 + xs.length) = 32 := by
    rw [htail, byteAt_append_right (Nat.le_refl _), Nat.sub_self]
    rfl
  have hybytes : ∀ j, j < ys.length → byteAt B (3 + xs.length + 1 + j) = ys.getD j 0 := by
    intro j hj
    rw [show 3 + xs.length + 1 + j = 3 + (xs.length + (j + 1)) by omega, htail,
      byteAt_append_right (by omega), show xs.length + (j + 1) - xs.length = j + 1 by omega,
      byteAt_cons_succ, byteAt_append_left hj]
    rfl
  have hnl : byteAt B (3 + xs.length + 1 + ys.length) = 10 := by
    rw [show 3 + xs.length + 1 + ys.length = 3 + (xs.length + (ys.length + 1)) by omega, htail,
      byteAt_append_right (by omega),
      show xs.length + (ys.length + 1) - xs.length = ys.length + 1 by omega,
      byteAt_cons_succ, byteAt_append_right (Nat.le_refl _), Nat.sub_self]
    rfl
  have hrun := parse_pixel_coordinates_run B 3 xs ys hxne hxlen hxd hxbytes
    (fun _ => by rw [hsepB]; omega) hyne hylen hyd hybytes
    (fun _ => by rw [hnl]; omega)
  simp only [pxBody, pxTail, Nat.zero_add]
  rw [hrun]
  dsimp only
  rw [hnl, if_pos rfl, if_neg (by omega)]
  simp only [Nat.add_sub_cancel,
    show 3 + xs.length + 1 + ys.length = xs.length + ys.length + 4 by omega]
  rw [if_pos trivial]

/-! ## Canonical wire commands and full-parse characterizations -/

/-- The canonical bytes of `PX {x} {y} {v:06x}\n`. -/
def pxSetCmd (x y v : Nat) : List Nat :=
  [80, 88, 32] ++ decRender x ++ [32] ++ decRender y ++ [32] ++ hexRender6 v ++ [10]

/-- The canonical bytes of `PX {x} {y}\n`. -/
def pxGetCmd (x y : Nat) : List Nat :=
  [80, 88, 32] ++ decRender x ++ [32] ++ decRender y ++ [10]

/-- The 24-bit value the RGB set path stores for the wire color `v`:
the hex-digit pairs of the wire string land in ascending byte positions
(red in the low byte). -/
def packLE (v : Nat) : Nat :=
  v / 16 % 16 * 1048576 + v % 16 * 65536 + v / 4096 % 16 * 4096 +
    v / 256 % 16 * 256 + v / 1048576 % 16 * 16 + v / 65536 % 16

theorem hexRender6_length (v : Nat) : (hexRender6 v).length = 6 := rfl

theorem hexRender6_lanes_lt (v : Nat) : ∀ c ∈ hexRender6 v, hexLane c < 16 := by
  intro c hc
  have hbound : ∀ x : Nat, x &&& 15 < 16 := by
    intro x
    rw [and15_eq]
    exact Nat.mod_lt _ (by omega)
  simp only [hexRender6, List.mem_cons, List.mem_singleton, List.not_mem_nil, or_false] at hc
  rcases hc with h | h | h | h | h | h <;>
    (subst h; rw [hexLane_hexDigitByte _ (hbound _)]; exact hbound _)

theorem hexRender6_decode (v : Nat) :
    hexLane (byteAt (hexRender6 v) 4) * 1048576 + hexLane (byteAt (hexRender6 v) 5) * 65536 +
      hexLane (byteAt (hexRender6 v) 2) * 4096 + hexLane (byteAt (hexRender6 v) 3) * 256 +
      hexLane (byteAt (hexRender6 v) 0) * 16 + hexLane (byteAt (hexRender6 v) 1) =
    packLE v := by
  have hbound : ∀ x : Nat, x &&& 15 < 16 := by
    intro x
    rw [and15_eq]
    exact Nat.mod_lt _ (by omega)
  rw [show byteAt (hexRender6 v) 0 = hexDigitByte ((v >>> 20) &&& 15) from rfl,
    show byteAt (hexRender6 v) 1 = hexDigitByte ((v >>> 16) &&& 15) from rfl,
    show byteAt (hexRender6 v) 2 = hexDigitByte ((v >>> 12) &&& 15) from rfl,
    show byteAt (hexRender6 v) 3 = hexDigitByte ((v >>> 8) &&& 15) from rfl,
    show byteAt (hexRender6 v) 4 = hexDigitByte ((v >>> 4) &&& 15) from rfl,
    show byteAt (hexRender6 v) 5 = hexDigitByte (v &&& 15) from rfl,
    hexLane_hexDigitByte _ (hbound _), hexLane_hexDigitByte _ (hbound _),
    hexLane_hexDigitByte _ (hbound _), hexLane_hexDigitByte _ (hbound _),
    hexLane_hexDigitByte _ (hbound _), hexLane_hexDigitByte _ (hbound _)]
  unfold packLE
  simp only [and15_eq, shr4_eq, shr8_eq, shr12_eq, shr16_eq, shr20_eq]

/-- Dispatch: when the `PX ` guard holds the step is the `PX` branch. -/
theorem parseStep_px {alpha : Bool} {buffer : List Nat} {st : SimpleParser}
    {fb : FrameBuffer} {sink : Sink} {last i : Nat}
    (h : readU64LE buffer i &&& 16777215 = PX_PAT) :
    parseStep alpha buffer st fb sink last i = pxBody alpha buffer st fb sink last i := by
  simp only [parseStep]
  rw [if_pos h]

/-- Full `parse` of a canonical set command (with enough zero padding to
satisfy the lookahead): exactly the one pixel is set, the offset state
and sink are untouched, and the returned marker is the newline's index. -/
theorem parse_pxSet (alpha : Bool) (st : SimpleParser) (fb : FrameBuffer) (sink : Sink)
    (x y v : Nat) (hx : x < 10000) (hy : y < 10000) :
    SimpleParser.parse alpha st (pxSetCmd x y v ++ List.replicate PARSER_LOOKAHEAD 0) fb sink =
      ⟨st, fb.set (x + st.connection_x_offset) (y + st.connection_y_offset) (packLE v), sink,
        Except.ok ((decRender x).length + (decRender y).length + 11)⟩ := by
  have hxlen := decRender_length hx
  have hylen := decRender_length hy
  have hshape : pxSetCmd x y v ++ List.replicate PARSER_LOOKAHEAD 0 =
      [80, 88, 32] ++ (decRender x ++ 32 :: (decRender y ++ 32 ::
        (hexRender6 v ++ 10 :: List.replicate PARSER_LOOKAHEAD 0))) := by
    simp [pxSetCmd, List.append_assoc]
  have hlen : (pxSetCmd x y v ++ List.replicate PARSER_LOOKAHEAD 0).length =
      (decRender x).length + (decRender y).length + 34 := by
    rw [hshape]
    simp [PARSER_LOOKAHEAD, hexRender6_length]
    omega
  unfold SimpleParser.parse
  rw [hlen, hshape]
  set B := [80, 88, 32] ++ (decRender x ++ 32 :: (decRender y ++ 32 ::
      (hexRender6 v ++ 10 :: List.replicate PARSER_LOOKAHEAD 0))) with hBdef
  have hloopend : (decRender x).length + (decRender y).length + 34 - PARSER_LOOKAHEAD =
      (decRender x).length + (decRender y).length + 12 := by
    simp [PARSER_LOOKAHEAD]
  rw [hloopend]
  obtain ⟨f, hf⟩ : ∃ f, (decRender x).length + (decRender y).length + 34 = f + 1 :=
    ⟨(decRender x).length + (decRender y).length + 33, by omega⟩
  rw [hf, parseLoop_go f (by omega)]
  have hb0 : byteAt B 0 = 80 := by rw [hBdef, byteAt_append_left (by simp)]; rfl
  have hb1 : byteAt B (0 + 1) = 88 := by rw [hBdef, byteAt_append_left (by simp)]; rfl
  have hb2 : byteAt B (0 + 2) = 32 := by rw [hBdef, byteAt_append_left (by simp)]; rfl
  have hguard : readU64LE B 0 &&& 16777215 = PX_PAT :=
    (px_guard_iff B 0 (by rw [hb0]; omega) (by rw [hb1]; omega) (by rw [hb2]; omega)).mpr
      ⟨hb0, hb1, hb2⟩
  rw [parseStep_px hguard]
  rw [pxBody_set_general alpha st fb sink 0 (decRender x) (decRender y) (hexRender6 v)
    (List.replicate PARSER_LOOKAHEAD 0) 32 (decRender_ne_nil hx) hxlen.2
    (decRender_digits hx) (decRender_ne_nil hy) hylen.2 (decRender_digits hy)
    (by omega) (hexRender6_length v) (hexRender6_lanes_lt v)]
  dsimp only
  rw [parseLoop_exit f (by omega)]
  rw [decValue_decRender hx, decValue_decRender hy, hexRender6_decode]

/-- Full `parse` of a canonical pixel query (with zero padding): the
reply for the queried cell is pushed to the sink in client-frame
coordinates, nothing else changes. -/
theorem parse_pxGet (alpha : Bool) (st : SimpleParser) (fb : FrameBuffer) (sink : Sink)
    (x y : Nat) (hx : x < 10000) (hy : y < 10000) :
    SimpleParser.parse alpha st (pxGetCmd x y ++ List.replicate PARSER_LOOKAHEAD 0) fb sink =
      match fb.get (x + st.connection_x_offset) (y + st.connection_y_offset) with
      | some rgb =>
        ⟨st, fb, (sink.write_all (pxReply x y rgb)).2,
          Except.ok ((decRender x).length + (decRender y).length + 4)⟩
      | none =>
        ⟨st, fb, sink, Except.ok ((decRender x).length + (decRender y).length + 4)⟩ := by
  have hxlen := decRender_length hx
  have hylen := decRender_length hy
  have hshape : pxGetCmd x y ++ List.replicate PARSER_LOOKAHEAD 0 =
      [80, 88, 32] ++ (decRender x ++ 32 :: (decRender y ++ 10 ::
        List.replicate PARSER_LOOKAHEAD 0)) := by
    simp [pxGetCmd, List.append_assoc]
  have hlen : (pxGetCmd x y ++ List.replicate PARSER_LOOKAHEAD 0).length =
      (decRender x).length + (decRender y).length + 27 := by
    rw [hshape]
    simp [PARSER_LOOKAHEAD]
    omega
  unfold SimpleParser.parse
  rw [hlen, hshape]
  set B := [80, 88, 32] ++ (decRender x ++ 32 :: (decRender y ++ 10 ::
      List.replicate PARSER_LOOKAHEAD 0)) with hBdef
  have hloopend : (decRender x).length + (decRender y).length + 27 - PARSER_LOOKAHEAD =
      (decRender x).length + (decRender y).length + 5 := by
    simp [PARSER_LOOKAHEAD]
  rw [hloopend]
  obtain ⟨f, hf⟩ : ∃ f, (decRender x).length + (decRender y).length + 27 = f + 1 :=
    ⟨(decRender x).length + (decRender y).length + 26, by omega⟩
  rw [hf, parseLoop_go f (by omega)]
  have hb0 : byteAt B 0 = 80 := by rw [hBdef, byteAt_append_left (by simp)]; rfl
  have hb1 : byteAt B (0 + 1) = 88 := by rw [hBdef, byteAt_append_left (by simp)]; rfl
  have hb2 : byteAt B (0 + 2) = 32 := by rw [hBdef, byteAt_append_left (by simp)]; rfl
  have hguard : readU64LE B 0 &&& 16777215 = PX_PAT :=
    (px_guard_iff B 0 (by rw [hb0]; omega) (by rw [hb1]; omega) (by rw [hb2]; omega)).mpr
      ⟨hb0, hb1, hb2⟩
  rw [parseStep_px hguard]
  rw [pxBody_get_general alpha st fb sink 0 (decRender x) (decRender y)
    (List.replicate PARSER_LOOKAHEAD 0) (decRender_ne_nil hx) hxlen.2
    (decRender_digits hx) (decRender_ne_nil hy) hylen.2 (decRender_digits hy)]
  rw [decValue_decRender hx, decValue_decRender hy]
  cases hget : fb.get (x + st.connection_x_offset) (y + st.connection_y_offset) with
  | some rgb =>
    dsimp only
    rw [parseLoop_exit f (by omega)]
  | none =>
    dsimp only
    rw [parseLoop_exit f (by omega)]

theorem FrameBuffer.get_set_self (fb : FrameBuffer) (x y c : Nat)
    (hx : x < fb.width) (hy : y < fb.height) :
    (fb.set x y c).get x y = some c := by
  unfold FrameBuffer.set
  rw [if_pos ⟨hx, hy⟩]
  unfold FrameBuffer.get
  dsimp only
  rw [if_pos ⟨hx, hy⟩, if_pos rfl]

theorem byteAt_eq_zero {buf : List Nat} {k : Nat} (h : buf.length ≤ k) : byteAt buf k = 0 := by
  rw [byteAt, List.getD_eq_getElem?_getD, List.getElem?_eq_none h]
  rfl

/-- The cursor position after a dispatcher iteration (`none` on abort). -/
def StepResult.cursor : StepResult → Option Nat
  | StepResult.next _ _ _ _ i => some i
  | StepResult.abort _ _ _ => none

/-- The last-parsed marker after a dispatcher iteration (`none` on abort). -/
def StepResult.marker : StepResult → Option Nat
  | StepResult.next _ _ _ l _ => some l
  | StepResult.abort _ _ _ => none

/-- A `PX ` attempt whose remainder is malformed: no digit pair, or the
byte after the coordinates is neither the separator space nor a newline,
or a space is present but none of the three color layouts nor a bare
newline follows. -/
def MalformedPx (buffer : List Nat) (i : Nat) : Prop :=
  (parse_pixel_coordinates buffer (i + 3)).2.2.2 = false ∨
  ((parse_pixel_coordinates buffer (i + 3)).2.2.2 = true ∧
    byteAt buffer (parse_pixel_coordinates buffer (i + 3)).2.2.1 ≠ 32 ∧
    byteAt buffer (parse_pixel_coordinates buffer (i + 3)).2.2.1 ≠ 10) ∨
  ((parse_pixel_coordinates buffer (i + 3)).2.2.2 = true ∧
    byteAt buffer (parse_pixel_coordinates buffer (i + 3)).2.2.1 = 32 ∧
    byteAt buffer ((parse_pixel_coordinates buffer (i + 3)).2.2.1 + 1 + 6) ≠ 10 ∧
    byteAt buffer ((parse_pixel_coordinates buffer (i + 3)).2.2.1 + 1 + 8) ≠ 10 ∧
    byteAt buffer ((parse_pixel_coordinates buffer (i + 3)).2.2.1 + 1 + 2) ≠ 10 ∧
    byteAt buffer ((parse_pixel_coordinates buffer (i + 3)).2.2.1 + 1) ≠ 10)

instance (buffer : List Nat) (i : Nat) : Decidable (MalformedPx buffer i) := by
  unfold MalformedPx; infer_instance

instance (buffer : List Nat) (j : Nat) : Decidable (sizeKeyAt buffer j) := by
  unfold sizeKeyAt; infer_instance

instance (buffer : List Nat) (j : Nat) : Decidable (helpKeyAt buffer j) := by
  unfold helpKeyAt; infer_instance

/-- A malformed `PX` attempt leaves the state, sink and marker untouched
and resumes at the cursor reached after the prefix and coordinate
consumption, plus one. -/
theorem pxBody_malformed {alpha : Bool} {buffer : List Nat} {st : SimpleParser}
    {fb : FrameBuffer} {sink : Sink} {last i : Nat} (hm : MalformedPx buffer i) :
    ∃ i2, pxBody alpha buffer st fb sink last i = StepResult.next st fb sink last i2 ∧
      i + 1 ≤ i2 := by
  have hidx := parse_pixel_coordinates_idx buffer (i + 3)
  unfold MalformedPx at hm
  simp only [pxBody, pxTail]
  rcases hm with hm | ⟨hp, hm1, hm2⟩ | ⟨hp, hsp, h6, h8, h2, h1⟩
  · rw [if_neg (by rw [hm]; exact Bool.false_ne_true)]
    exact ⟨_, rfl, by omega⟩
  · rw [if_pos hp, if_neg hm1, if_neg hm2]
    exact ⟨_, rfl, by omega⟩
  · rw [if_pos hp, if_pos hsp, if_neg h6, if_neg h8, if_neg h2, if_neg h1]
    exact ⟨_, rfl, by omega⟩

/-! ## Claim theorems -/

/-- The bytes `"OFFSET 100 100\n"`, zero-padded past the lookahead. -/
def c1OffsetBuf : List Nat :=
  padded [79, 70, 70, 83, 69, 84, 32, 49, 48, 48, 32, 49, 48, 48, 10]

/-- The bytes `"PX 0 0 ff0000\n"`, zero-padded past the lookahead. -/
def c1SetBuf : List Nat := padded [80, 88, 32, 48, 32, 48, 32, 102, 102, 48, 48, 48, 48, 10]

/-- The bytes `"PX 0 0\n"`, zero-padded past the lookahead. -/
def c1GetBuf : List Nat := padded [80, 88, 32, 48, 32, 48, 10]

/-- Sequential session: `OFFSET 100 100\n`, then `PX 0 0 ff0000\n`, then
`PX 0 0\n`, on a fresh 200×200 canvas. -/
def c1Out1 : ParseOutcome :=
  SimpleParser.parse false ⟨0, 0⟩ c1OffsetBuf (FrameBuffer.init 200 200) Sink.good

def c1Out2 : ParseOutcome := SimpleParser.parse false c1Out1.st c1SetBuf c1Out1.fb Sink.good

def c1Out3 : ParseOutcome := SimpleParser.parse false c1Out2.st c1GetBuf c1Out2.fb Sink.good

/-- C1: the code at the claimed behavior's input.  After parsing
`OFFSET 100 100\n` the connection offset is still `(0, 0)` — the
`OFFSET` branch's guard masks only the low six bytes (`"OFFSET"`) of the
read but compares them against the unmasked eight-byte pattern, which
contains the space `0x20` in byte 6, so it can never match (see
`offset_guard_never_matches`).  Consequently the subsequent
`PX 0 0 ff0000\n` mutates canvas cell `(0, 0)`, not `(100, 100)` as the
claim requires, and the `PX 0 0\n` reply reads cell `(0, 0)`. -/
theorem c1_offset_never_applied :
    c1Out1.st.connection_x_offset = 0 ∧ c1Out1.st.connection_y_offset = 0 ∧
    c1Out1.result = Except.ok 0 ∧
    c1Out2.fb.get_unchecked 100 100 = 0 ∧ c1Out2.fb.get_unchecked 0 0 = 255 ∧
    c1Out3.sink.output = [80, 88, 32, 48, 32, 48, 32, 102, 102, 48, 48, 48, 48, 10] :=
  ⟨by decide, by decide, by rfl, by decide, by decide, by decide⟩

/-- The bytes `"PX 0 0\nPX 1 1 abcdef\n"`, zero-padded. -/
def c2Buf : List Nat :=
  padded ([80, 88, 32, 48, 32, 48, 10] ++
    [80, 88, 32, 49, 32, 49, 32, 97, 98, 99, 100, 101, 102, 10])

/-- C2 counterexample: with a sink whose writes all fail, the pixel-query
reply write for `PX 0 0\n` fails, yet `parse` returns `Ok` (not the write
error) and keeps parsing: the later `PX 1 1 abcdef\n` in the same buffer
is still applied to the canvas. -/
theorem c2_pixel_query_failure_swallowed :
    (SimpleParser.parse false ⟨0, 0⟩ c2Buf (FrameBuffer.init 8 8) Sink.bad).result =
      Except.ok 20 ∧
    (SimpleParser.parse false ⟨0, 0⟩ c2Buf (FrameBuffer.init 8 8) Sink.bad).fb.get_unchecked
      1 1 = 15715755 ∧
    (15715755 : Nat) ≠ 0 :=
  ⟨by rfl, by decide, by decide⟩

/-- C2 as amended: a failed `SIZE`/`HELP` reply write aborts the
iteration with `Error::WriteToTcpSocket` (state and canvas untouched),
while a failed pixel-query reply write is swallowed: the iteration
continues normally with only the sink's call counter advanced. -/
theorem c2_write_failure_amended :
    (∀ (alpha : Bool) (buffer : List Nat) (st : SimpleParser) (fb : FrameBuffer)
        (sink : Sink) (last i : Nat),
      sink.failAt sink.calls = true →
      (sizeKeyAt buffer i ∨ helpKeyAt buffer i) →
      parseStep alpha buffer st fb sink last i =
        StepResult.abort st fb { sink with calls := sink.calls + 1 }) ∧
    (∀ (alpha : Bool) (st : SimpleParser) (fb : FrameBuffer) (sink : Sink)
        (last : Nat) (xs ys rest : List Nat) (rgb : Nat),
      sink.failAt sink.calls = true →
      xs ≠ [] → xs.length ≤ 4 → (∀ d ∈ xs, 48 ≤ d ∧ d ≤ 57) →
      ys ≠ [] → ys.length ≤ 4 → (∀ d ∈ ys, 48 ≤ d ∧ d ≤ 57) →
      fb.get (decValue xs + st.connection_x_offset)
        (decValue ys + st.connection_y_offset) = some rgb →
      parseStep alpha ([80, 88, 32] ++ (xs ++ 32 :: (ys ++ 10 :: rest))) st fb sink last 0 =
        StepResult.next st fb { sink with calls := sink.calls + 1 }
          (xs.length + ys.length + 4) (xs.length + ys.length + 5)) := by
  constructor
  · intro alpha buffer st fb sink last i hfail hkey
    simp only [parseStep]
    rcases hkey with ⟨k0, k1, k2, k3⟩ | ⟨k0, k1, k2, k3⟩
    · rw [if_neg (by
          rw [px_guard_iff buffer i (by rw [k0]; omega) (by rw [k1]; omega)
            (by rw [k2]; omega)]
          omega),
        if_neg (offset_guard_never_matches buffer i),
        if_pos ((size_guard_iff buffer i (by rw [k0]; omega) (by rw [k1]; omega)
          (by rw [k2]; omega) (by rw [k3]; omega)).mpr ⟨k0, k1, k2, k3⟩)]
      simp only [sizeBody, Sink.write_all]
      rw [if_pos hfail]
      rfl
    · rw [if_neg (by
          rw [px_guard_iff buffer i (by rw [k0]; omega) (by rw [k1]; omega)
            (by rw [k2]; omega)]
          omega),
        if_neg (offset_guard_never_matches buffer i),
        if_neg (by
          rw [size_guard_iff buffer i (by rw [k0]; omega) (by rw [k1]; omega)
            (by rw [k2]; omega) (by rw [k3]; omega)]
          omega),
        if_pos ((help_guard_iff buffer i (by rw [k0]; omega) (by rw [k1]; omega)
          (by rw [k2]; omega) (by rw [k3]; omega)).mpr ⟨k0, k1, k2, k3⟩)]
      simp only [helpBody, Sink.write_all]
      rw [if_pos hfail]
      rfl
  · intro alpha st fb sink last xs ys rest rgb hfail hxne hxlen hxd hyne hylen hyd hget
    have hb0 : byteAt ([80, 88, 32] ++ (xs ++ 32 :: (ys ++ 10 :: rest))) 0 = 80 := by
      rw [byteAt_append_left (by simp)]; rfl
    have hb1 : byteAt ([80, 88, 32] ++ (xs ++ 32 :: (ys ++ 10 :: rest))) (0 + 1) = 88 := by
      rw [byteAt_append_left (by simp)]; rfl
    have hb2 : byteAt ([80, 88, 32] ++ (xs ++ 32 :: (ys ++ 10 :: rest))) (0 + 2) = 32 := by
      rw [byteAt_append_left (by simp)]; rfl
    rw [parseStep_px ((px_guard_iff _ 0 (by rw [hb0]; omega) (by rw [hb1]; omega)
      (by rw [hb2]; omega)).mpr ⟨hb0, hb1, hb2⟩)]
    rw [pxBody_get_general alpha st fb sink last xs ys rest hxne hxlen hxd hyne hylen hyd]
    rw [hget]
    dsimp only
    simp only [Sink.write_all]
    rw [if_pos hfail]

/-- Witness for C2's amended theorem at concrete inputs: a failing write
under a `SIZE` command aborts; a failing pixel-query write continues. -/
theorem c2_write_failure_amended_witness :
    parseStep false [83, 73, 90, 69, 10, 0, 0, 0] ⟨0, 0⟩ (FrameBuffer.init 8 8) Sink.bad 0 0 =
      StepResult.abort ⟨0, 0⟩ (FrameBuffer.init 8 8)
        { Sink.bad with calls := Sink.bad.calls + 1 } ∧
    parseStep false ([80, 88, 32] ++ ([49] ++ 32 :: ([50] ++ 10 :: [0, 0, 0, 0])))
        ⟨0, 0⟩ (FrameBuffer.init 8 8) Sink.bad 0 0 =
      StepResult.next ⟨0, 0⟩ (FrameBuffer.init 8 8)
        { Sink.bad with calls := Sink.bad.calls + 1 } 6 7 := by
  constructor
  · exact c2_write_failure_amended.1 false [83, 73, 90, 69, 10, 0, 0, 0] ⟨0, 0⟩
      (FrameBuffer.init 8 8) Sink.bad 0 0 (by decide) (Or.inl (by decide))
  · have h := c2_write_failure_amended.2 false ⟨0, 0⟩ (FrameBuffer.init 8 8) Sink.bad 0
      [49] [50] [0, 0, 0, 0] 0 (by decide) (by decide) (by decide) (by decide)
      (by decide) (by decide) (by decide) (by rfl)
    simpa using h

/-- The bytes `"PX PX 1 1 ff0000\n"`, zero-padded: a `PX ` prefix whose
remainder is malformed, hiding a valid command starting at offset 3. -/
def c3Buf : List Nat :=
  padded [80, 88, 32, 80, 88, 32, 49, 32, 49, 32, 102, 102, 48, 48, 48, 48, 10]

/-- C3 counterexample: the `PX ` prefix matches at cursor 0 and the
remainder is malformed, but the next iteration starts at cursor 5, not at
the claimed restored position `0 + 1` — the cursor is *not* rolled back
to its pre-attempt value (it keeps the prefix and coordinate-scan
advances), so the embedded valid `PX 1 1 ff0000\n` at offset 3 is
skipped.  The marker is indeed not advanced. -/
theorem c3_cursor_not_restored :
    readU64LE c3Buf 0 &&& 16777215 = PX_PAT ∧
    MalformedPx c3Buf 0 ∧
    (parseStep false c3Buf ⟨0, 0⟩ (FrameBuffer.init 8 8) Sink.good 7 0).cursor = some 5 ∧
    (parseStep false c3Buf ⟨0, 0⟩ (FrameBuffer.init 8 8) Sink.good 7 0).marker = some 7 ∧
    (5 : Nat) ≠ 0 + 1 := by
  refine ⟨by decide, by decide, by decide, by decide, by decide⟩

/-- C3 as amended: a malformed `PX` attempt never advances the
last-fully-parsed marker and never mutates the connection state, canvas
or sink, and the cursor resumes at least one byte past the attempt start
(but at the post-consumption position, not the restored pre-attempt
value). -/
theorem c3_malformed_amended (alpha : Bool) (buffer : List Nat) (st : SimpleParser)
    (fb : FrameBuffer) (sink : Sink) (last i : Nat)
    (hpx : readU64LE buffer i &&& 16777215 = PX_PAT) (hm : MalformedPx buffer i) :
    ∃ i2, parseStep alpha buffer st fb sink last i = StepResult.next st fb sink last i2 ∧
      i + 1 ≤ i2 := by
  rw [parseStep_px hpx]
  exact pxBody_malformed hm

/-- Witness for C3's amended theorem at the concrete malformed input. -/
theorem c3_malformed_amended_witness :
    ∃ i2, parseStep false c3Buf ⟨0, 0⟩ (FrameBuffer.init 8 8) Sink.good 7 0 =
      StepResult.next ⟨0, 0⟩ (FrameBuffer.init 8 8) Sink.good 7 i2 ∧ 0 + 1 ≤ i2 :=
  c3_malformed_amended false c3Buf ⟨0, 0⟩ (FrameBuffer.init 8 8) Sink.good 7 0
    (by decide) (by decide)

/-- C9: forward progress — every dispatcher iteration that continues the
loop strictly increases the cursor, so the fuel-indexed loop with
`buffer.length` fuel is an exact model of the `while` loop and `parse`
terminates on any input. -/
theorem c9_cursor_strictly_increases (alpha : Bool) (buffer : List Nat)
    (st st2 : SimpleParser) (fb fb2 : FrameBuffer) (sink sink2 : Sink)
    (last i last2 i2 : Nat)
    (h : parseStep alpha buffer st fb sink last i = StepResult.next st2 fb2 sink2 last2 i2) :
    i < i2 :=
  parseStep_progress h

/-- Witness for C9 at a concrete garbage input (all zero bytes). -/
theorem c9_cursor_strictly_increases_witness : (0 : Nat) < 1 :=
  c9_cursor_strictly_increases false (padded []) ⟨0, 0⟩ ⟨0, 0⟩ (FrameBuffer.init 8 8)
    (FrameBuffer.init 8 8) Sink.good Sink.good 0 0 0 1 (by rfl)

set_option maxRecDepth 4096 in
set_option maxHeartbeats 1000000 in
theorem codecDecode2 (a b : Nat) (ha : isHexDigitByte a) (hb : isHexDigitByte b) :
    codecDecode [a, b] = hexVal a * 16 + hexVal b := by
  show simd_unhex [a, b, 0, 0, 0, 0, 0, 0] &&& 255 = _
  rw [simd_unhex_and8 [a, b, 0, 0, 0, 0, 0, 0]
      (hexLane_lt_of_hex ha) (hexLane_lt_of_hex hb),
    show byteAt [a, b, 0, 0, 0, 0, 0, 0] 0 = a from rfl,
    show byteAt [a, b, 0, 0, 0, 0, 0, 0] 1 = b from rfl,
    hexLane_eq_hexVal ha, hexLane_eq_hexVal hb]

set_option maxRecDepth 4096 in
set_option maxHeartbeats 1000000 in
theorem codecDecode6 (a b c d e f : Nat)
    (ha : isHexDigitByte a) (hb : isHexDigitByte b) (hc : isHexDigitByte c)
    (hd : isHexDigitByte d) (he : isHexDigitByte e) (hf : isHexDigitByte f) :
    codecDecode [a, b, c, d, e, f] =
      hexVal e * 1048576 + hexVal f * 65536 + hexVal c * 4096 + hexVal d * 256 +
        hexVal a * 16 + hexVal b := by
  unfold codecDecode
  simp only [List.length_cons, List.length_nil, List.cons_append, List.nil_append]
  norm_num [List.replicate]
  rw [simd_unhex_and24 [a, b, c, d, e, f, 0, 0]
      (hexLane_lt_of_hex ha) (hexLane_lt_of_hex hb) (hexLane_lt_of_hex hc)
      (hexLane_lt_of_hex hd) (hexLane_lt_of_hex he) (hexLane_lt_of_hex hf),
    show byteAt [a, b, c, d, e, f, 0, 0] 0 = a from rfl,
    show byteAt [a, b, c, d, e, f, 0, 0] 1 = b from rfl,
    show byteAt [a, b, c, d, e, f, 0, 0] 2 = c from rfl,
    show byteAt [a, b, c, d, e, f, 0, 0] 3 = d from rfl,
    show byteAt [a, b, c, d, e, f, 0, 0] 4 = e from rfl,
    show byteAt [a, b, c, d, e, f, 0, 0] 5 = f from rfl,
    hexLane_eq_hexVal ha, hexLane_eq_hexVal hb, hexLane_eq_hexVal hc,
    hexLane_eq_hexVal hd, hexLane_eq_hexVal he, hexLane_eq_hexVal hf]

set_option maxRecDepth 4096 in
set_option maxHeartbeats 1000000 in
theorem codecDecode8 (a b c d e f g h : Nat)
    (ha : isHexDigitByte a) (hb : isHexDigitByte b) (hc : isHexDigitByte c)
    (hd : isHexDigitByte d) (he : isHexDigitByte e) (hf : isHexDigitByte f)
    (hg : isHexDigitByte g) (hh : isHexDigitByte h) :
    codecDecode [a, b, c, d, e, f, g, h] =
      hexVal g * 268435456 + hexVal h * 16777216 + hexVal e * 1048576 + hexVal f * 65536 +
        hexVal c * 4096 + hexVal d * 256 + hexVal a * 16 + hexVal b := by
  unfold codecDecode
  simp only [List.length_cons, List.length_nil, List.cons_append, List.nil_append]
  norm_num [List.replicate]
  rw [simd_unhex_eq [a, b, c, d, e, f, g, h]
      (hexLane_lt_of_hex ha) (hexLane_lt_of_hex hb) (hexLane_lt_of_hex hc)
      (hexLane_lt_of_hex hd) (hexLane_lt_of_hex he) (hexLane_lt_of_hex hf)
      (hexLane_lt_of_hex hg) (hexLane_lt_of_hex hh)]
  rw [and32_of_lt (by
    have b0 := hexLane_lt_of_hex ha
    have b1 := hexLane_lt_of_hex hb
    have b2 := hexLane_lt_of_hex hc
    have b3 := hexLane_lt_of_hex hd
    have b4 := hexLane_lt_of_hex he
    have b5 := hexLane_lt_of_hex hf
    have b6 := hexLane_lt_of_hex hg
    have b7 := hexLane_lt_of_hex hh
    simp only [show byteAt [a, b, c, d, e, f, g, h] 0 = a from rfl,
      show byteAt [a, b, c, d, e, f, g, h] 1 = b from rfl,
      show byteAt [a, b, c, d, e, f, g, h] 2 = c from rfl,
      show byteAt [a, b, c, d, e, f, g, h] 3 = d from rfl,
      show byteAt [a, b, c, d, e, f, g, h] 4 = e from rfl,
      show byteAt [a, b, c, d, e, f, g, h] 5 = f from rfl,
      show byteAt [a, b, c, d, e, f, g, h] 6 = g from rfl,
      show byteAt [a, b, c, d, e, f, g, h] 7 = h from rfl] at *
    omega)]
  simp only [show byteAt [a, b, c, d, e, f, g, h] 0 = a from rfl,
    show byteAt [a, b, c, d, e, f, g, h] 1 = b from rfl,
    show byteAt [a, b, c, d, e, f, g, h] 2 = c from rfl,
    show byteAt [a, b, c, d, e, f, g, h] 3 = d from rfl,
    show byteAt [a, b, c, d, e, f, g, h] 4 = e from rfl,
    show byteAt [a, b, c, d, e, f, g, h] 5 = f from rfl,
    show byteAt [a, b, c, d, e, f, g, h] 6 = g from rfl,
    show byteAt [a, b, c, d, e, f, g, h] 7 = h from rfl,
    hexLane_eq_hexVal ha, hexLane_eq_hexVal hb, hexLane_eq_hexVal hc,
    hexLane_eq_hexVal hd, hexLane_eq_hexVal he, hexLane_eq_hexVal hf,
    hexLane_eq_hexVal hg, hexLane_eq_hexVal hh]

/-- C4 counterexample: the codec's decode of `"ff0000"` is `0x0000ff`,
not the reference big-endian value `0xff0000` — the decode is
byte-reversed with respect to a big-endian hex-to-int conversion. -/
theorem c4_not_big_endian :
    codecDecode [102, 102, 48, 48, 48, 48] = 255 ∧
    hexRefBE [102, 102, 48, 48, 48, 48] = 16711680 ∧
    (255 : Nat) ≠ 16711680 :=
  ⟨by decide, by decide, by decide⟩

/-- C4 as amended: for every hex string of logical length 2, 6 or 8 (any
case mixture), the codec's decode equals the value whose byte `k` is the
string's `k`-th hex-digit pair (`pairValueLE`) — the byte-reversal of the
big-endian reference (they agree only at length 2); the per-character
branchless transform does map every hex digit to its value. -/
theorem c4_decode_pairs_amended (s : List Nat)
    (hlen : s.length = 2 ∨ s.length = 6 ∨ s.length = 8)
    (hhex : ∀ c ∈ s, isHexDigitByte c) :
    codecDecode s = pairValueLE s ∧ (∀ c, isHexDigitByte c → hexLane c = hexVal c) := by
  refine ⟨?_, fun c hc => hexLane_eq_hexVal hc⟩
  rcases hlen with h | h | h
  · rcases s with _ | ⟨a, _ | ⟨b, _ | ⟨c, t⟩⟩⟩ <;> simp at h
    rw [codecDecode2 a b (hhex a (by simp)) (hhex b (by simp))]
    simp only [pairValueLE]
    omega
  · rcases s with _ | ⟨a, _ | ⟨b, _ | ⟨c, _ | ⟨d, _ | ⟨e, _ | ⟨f, _ | ⟨g, t⟩⟩⟩⟩⟩⟩⟩ <;> simp at h
    rw [codecDecode6 a b c d e f (hhex a (by simp)) (hhex b (by simp)) (hhex c (by simp))
      (hhex d (by simp)) (hhex e (by simp)) (hhex f (by simp))]
    simp only [pairValueLE]
    omega
  · rcases s with _ | ⟨a, _ | ⟨b, _ | ⟨c, _ | ⟨d, _ | ⟨e, _ | ⟨f, _ | ⟨g, _ | ⟨h2, _ | ⟨i, t⟩⟩⟩⟩⟩⟩⟩⟩⟩ <;>
      simp at h
    rw [codecDecode8 a b c d e f g h2 (hhex a (by simp)) (hhex b (by simp))
      (hhex c (by simp)) (hhex d (by simp)) (hhex e (by simp)) (hhex f (by simp))
      (hhex g (by simp)) (hhex h2 (by simp))]
    simp only [pairValueLE]
    omega

/-- Witness for C4's amended theorem at the string `"ff0000"`. -/
theorem c4_decode_pairs_amended_witness :
    codecDecode [102, 102, 48, 48, 48, 48] = pairValueLE [102, 102, 48, 48, 48, 48] ∧
      (∀ c, isHexDigitByte c → hexLane c = hexVal c) :=
  c4_decode_pairs_amended [102, 102, 48, 48, 48, 48] (by decide) (by decide)

/-- `"PX 0 0 ffffff
"` then `"PX 0 0 00000080
"` (RGBA, alpha 0x80),
zero-padded. -/
def c5Buf : List Nat :=
  padded ([80, 88, 32, 48, 32, 48, 32, 102, 102, 102, 102, 102, 102, 10] ++
    [80, 88, 32, 48, 32, 48, 32, 48, 48, 48, 48, 48, 48, 56, 48, 10])

/-- C5: the alpha build at the claimed behavior's input.  Cell (0, 0) is
first set to all-0xff channels, then composited with the all-zero color
at alpha = 128.  The claim (each output channel is the integer midpoint
`(0xff * 127 + 0 * 128) / 255 = 127`) requires the stored value
`0x7f7f7f`; the code instead stores `0x007f7f`, because it reads the
current channels from bit positions 24/16/8 while the stored layout
occupies bits 16/8/0 — one channel is blended against the always-zero
top byte and the old low-byte channel is dropped. -/
theorem c5_alpha_composite_channel_shift :
    (SimpleParser.parse true ⟨0, 0⟩ c5Buf (FrameBuffer.init 8 8) Sink.good).fb.get_unchecked
      0 0 = 32639 ∧
    (32639 : Nat) ≠ 8355711 :=
  ⟨by decide, by decide⟩

/-- C6: round-trip.  Setting a pixel with the canonical
`PX {x} {y} {v:06x}\n` and then querying `PX {x} {y}\n` on a fresh
offset-(0,0) connection reproduces exactly the set command's bytes as
the reply. -/
theorem c6_set_get_roundtrip (alpha : Bool) (fb : FrameBuffer) (sink : Sink) (x y v : Nat)
    (hx4 : x < 10000) (hy4 : y < 10000) (hv : v < 16777216)
    (hxw : x < fb.width) (hyh : y < fb.height) :
    (SimpleParser.parse alpha
        (SimpleParser.parse alpha ⟨0, 0⟩
          (pxSetCmd x y v ++ List.replicate PARSER_LOOKAHEAD 0) fb sink).st
        (pxGetCmd x y ++ List.replicate PARSER_LOOKAHEAD 0)
        (SimpleParser.parse alpha ⟨0, 0⟩
          (pxSetCmd x y v ++ List.replicate PARSER_LOOKAHEAD 0) fb sink).fb
        Sink.good).sink.output = pxSetCmd x y v := by
  rw [parse_pxSet alpha ⟨0, 0⟩ fb sink x y v hx4 hy4]
  dsimp only
  simp only [Nat.add_zero]
  rw [parse_pxGet alpha ⟨0, 0⟩ (fb.set x y (packLE v)) Sink.good x y hx4 hy4]
  dsimp only
  simp only [Nat.add_zero]
  rw [FrameBuffer.get_set_self fb x y (packLE v) hxw hyh]
  dsimp only
  simp only [Sink.write_all, Sink.good]
  rw [if_neg (by simp)]
  dsimp only
  rw [List.nil_append]
  unfold pxReply pxSetCmd
  rw [show u32_to_be (packLE v) >>> 8 = v from by unfold packLE; exact stored_reply_eq hv]

/-- Witness for C6 at `x = 3`, `y = 5`, `v = 0xabcdef` on an 8×8 canvas. -/
theorem c6_set_get_roundtrip_witness :
    (SimpleParser.parse false
        (SimpleParser.parse false ⟨0, 0⟩
          (pxSetCmd 3 5 11259375 ++ List.replicate PARSER_LOOKAHEAD 0)
          (FrameBuffer.init 8 8) Sink.good).st
        (pxGetCmd 3 5 ++ List.replicate PARSER_LOOKAHEAD 0)
        (SimpleParser.parse false ⟨0, 0⟩
          (pxSetCmd 3 5 11259375 ++ List.replicate PARSER_LOOKAHEAD 0)
          (FrameBuffer.init 8 8) Sink.good).fb
        Sink.good).sink.output = pxSetCmd 3 5 11259375 :=
  c6_set_get_roundtrip false (FrameBuffer.init 8 8) Sink.good 3 5 11259375
    (by decide) (by decide) (by decide) (by decide) (by decide)

/-- `"XPX 1 1 ff0000
"` (one garbage byte prepended), zero-padded. -/
def c7BufX : List Nat :=
  padded [88, 80, 88, 32, 49, 32, 49, 32, 102, 102, 48, 48, 48, 48, 10]

/-- `"PX 1 1 ff0000
"`, zero-padded. -/
def c7BufP : List Nat :=
  padded [80, 88, 32, 49, 32, 49, 32, 102, 102, 48, 48, 48, 48, 10]

/-- C7: resynchronization.  One garbage byte before `PX 1 1 ff0000
`
yields exactly the same final canvas as the clean command, no error is
raised either way, and the pixel is applied. -/
theorem c7_resync_skips_garbage_byte :
    (SimpleParser.parse false ⟨0, 0⟩ c7BufX (FrameBuffer.init 8 8) Sink.good).fb =
      (SimpleParser.parse false ⟨0, 0⟩ c7BufP (FrameBuffer.init 8 8) Sink.good).fb ∧
    (SimpleParser.parse false ⟨0, 0⟩ c7BufX (FrameBuffer.init 8 8) Sink.good).result =
      Except.ok 14 ∧
    (SimpleParser.parse false ⟨0, 0⟩ c7BufP (FrameBuffer.init 8 8) Sink.good).result =
      Except.ok 13 ∧
    (SimpleParser.parse false ⟨0, 0⟩ c7BufX (FrameBuffer.init 8 8) Sink.good).fb.get_unchecked
      1 1 = 255 :=
  ⟨by rfl, by rfl, by rfl, by decide⟩

/-- `"HEL"` followed by the 21-byte truncated command
`"PX 1234 1234 aabbccdd"` (an RGBA set cut right before its newline). -/
def c8Buf : List Nat :=
  [72, 69, 76] ++
    [80, 88, 32, 49, 50, 51, 52, 32, 49, 50, 51, 52, 32, 97, 97, 98, 98, 99, 99, 100, 100]

/-- C8 counterexample: the buffer ends in a truncated command (no
newline anywhere in its 21 bytes), yet `parse` returns
`last_consumed_offset = 3` — the index of the truncated command's first
byte — because the preceding bytes `"HEL"` together with the command's
`'P'` form a `HELP` keyword, which is consumed without any newline.  The
truncated tail is therefore not retained intact. -/
theorem c8_help_overlap_consumes_tail :
    (SimpleParser.parse false ⟨0, 0⟩ c8Buf (FrameBuffer.init 8 8) Sink.good).result =
      Except.ok 3 ∧
    List.drop 3 c8Buf =
      [80, 88, 32, 49, 50, 51, 52, 32, 49, 50, 51, 52, 32, 97, 97, 98, 98, 99, 99, 100, 100] ∧
    (List.drop 3 c8Buf).length = 21 ∧
    (∀ b ∈ List.drop 3 c8Buf, b ≠ 10) :=
  ⟨by rfl, by decide, by decide, by decide⟩

/-- C8 as amended: (1) a buffer shorter than the lookahead margin is
never consumed at all; (2) if the final bytes from position `s` on
contain no newline, and no `SIZE`/`HELP` keyword that starts before
`loop_end` ends at or past `s`, then the returned offset stays strictly
below `s`, so the tail is retained intact. -/
theorem c8_boundary_amended :
    (∀ (alpha : Bool) (st : SimpleParser) (fb : FrameBuffer) (sink : Sink)
        (buffer : List Nat),
      buffer.length < PARSER_LOOKAHEAD →
      SimpleParser.parse alpha st buffer fb sink = ⟨st, fb, sink, Except.ok 0⟩) ∧
    (∀ (alpha : Bool) (st : SimpleParser) (fb : FrameBuffer) (sink : Sink)
        (buffer : List Nat) (s r : Nat),
      ByteBuf buffer → 1 ≤ s →
      (∀ p, p < buffer.length → s ≤ p → byteAt buffer p ≠ 10) →
      (∀ j, j < buffer.length - PARSER_LOOKAHEAD → s ≤ j + 3 →
        ¬(sizeKeyAt buffer j ∨ helpKeyAt buffer j)) →
      (SimpleParser.parse alpha st buffer fb sink).result = Except.ok r →
      r < s) := by
  constructor
  · intro alpha st fb sink buffer hlen
    unfold SimpleParser.parse
    rw [show buffer.length - PARSER_LOOKAHEAD = 0 from by unfold PARSER_LOOKAHEAD at *; omega]
    exact parseLoop_exit buffer.length (by omega)
  · intro alpha st fb sink buffer s r hB hs hnl hkey hr
    unfold SimpleParser.parse at hr
    have hinv := parseLoop_last_inv hB buffer.length st fb sink 0 0 r (Or.inl rfl) hr
    rcases hinv with h0 | h10 | ⟨h3, hlt, hk⟩
    · omega
    · by_contra hge
      push_neg at hge
      have hrlen : r < buffer.length := by
        by_contra h2
        push_neg at h2
        rw [byteAt_eq_zero h2] at h10
        omega
      exact hnl r hrlen (by omega) h10
    · by_contra hge
      push_neg at hge
      exact hkey (r - 3) hlt (by omega) hk

/-- `"PX 1 1 ff0000
"` followed by the truncated `"PX 2 2 ff00"`. -/
def c8WitBuf : List Nat :=
  [80, 88, 32, 49, 32, 49, 32, 102, 102, 48, 48, 48, 48, 10] ++
    [80, 88, 32, 50, 32, 50, 32, 102, 102, 48, 48]

/-- Witness for C8's amended theorem: a two-byte buffer is not consumed,
and a complete command followed by a newline-free truncated tail at
position 14 yields a marker (13) strictly below the tail. -/
theorem c8_boundary_amended_witness :
    SimpleParser.parse false ⟨0, 0⟩ [80, 88] (FrameBuffer.init 8 8) Sink.good =
      ⟨⟨0, 0⟩, FrameBuffer.init 8 8, Sink.good, Except.ok 0⟩ ∧ (13 : Nat) < 14 :=
  ⟨c8_boundary_amended.1 false ⟨0, 0⟩ (FrameBuffer.init 8 8) Sink.good [80, 88] (by decide),
   c8_boundary_amended.2 false ⟨0, 0⟩ (FrameBuffer.init 8 8) Sink.good c8WitBuf 14 13
     (by decide) (by decide) (by decide) (by decide) (by rfl)⟩

/-- `"PX 123 ff0000
"`, zero-padded: digit runs `"1"`, separator `'2'`
(a digit), run `"3"` in the claim's reading. -/
def c10Buf : List Nat := padded [80, 88, 32, 49, 50, 51, 32, 102, 102, 48, 48, 48, 48, 10]

/-- C10 counterexample: with the separator byte itself a digit (`'2'`),
the claim predicts the command is accepted as if the separator were a
space, setting cell `(1, 3)` to `ff0000` (stored 255).  Instead the
x-scan consumes all of `"123"`, the y-scan then finds no digit, and the
command is rejected: the canvas is completely untouched. -/
theorem c10_digit_separator_regroups :
    (SimpleParser.parse false ⟨0, 0⟩ c10Buf (FrameBuffer.init 8 8) Sink.good).fb =
      FrameBuffer.init 8 8 ∧
    (FrameBuffer.init 8 8).get_unchecked 1 3 = 0 ∧
    (0 : Nat) ≠ 255 :=
  ⟨by rfl, by decide, by decide⟩

/-- C10 as amended: the coordinate-pair decoder skips the single byte
between the digit runs without checking it, provided that byte is not
itself a digit: for any non-digit separator the dispatcher iteration is
identical to the one with a space separator, and the pixel is set. -/
theorem c10_any_nondigit_separator (alpha : Bool) (st : SimpleParser) (fb : FrameBuffer)
    (sink : Sink) (last : Nat) (xs ys hs rest : List Nat) (sep : Nat)
    (hxne : xs ≠ []) (hxlen : xs.length ≤ 4) (hxd : ∀ d ∈ xs, 48 ≤ d ∧ d ≤ 57)
    (hyne : ys ≠ []) (hylen : ys.length ≤ 4) (hyd : ∀ d ∈ ys, 48 ≤ d ∧ d ≤ 57)
    (hsep : ¬(48 ≤ sep ∧ sep ≤ 57))
    (hhlen : hs.length = 6) (hhex : ∀ c ∈ hs, isHexDigitByte c) :
    parseStep alpha ([80, 88, 32] ++ (xs ++ sep :: (ys ++ 32 :: (hs ++ 10 :: rest))))
        st fb sink last 0 =
      parseStep alpha ([80, 88, 32] ++ (xs ++ 32 :: (ys ++ 32 :: (hs ++ 10 :: rest))))
        st fb sink last 0 ∧
    parseStep alpha ([80, 88, 32] ++ (xs ++ sep :: (ys ++ 32 :: (hs ++ 10 :: rest))))
        st fb sink last 0 =
      StepResult.next st
        (fb.set (decValue xs + st.connection_x_offset) (decValue ys + st.connection_y_offset)
          (hexLane (byteAt hs 4) * 1048576 + hexLane (byteAt hs 5) * 65536 +
            hexLane (byteAt hs 2) * 4096 + hexLane (byteAt hs 3) * 256 +
            hexLane (byteAt hs 0) * 16 + hexLane (byteAt hs 1)))
        sink (xs.length + ys.length + 11) (xs.length + ys.length + 12) := by
  have hlane : ∀ c ∈ hs, hexLane c < 16 := fun c hc => hexLane_lt_of_hex (hhex c hc)
  have hguard1 : readU64LE ([80, 88, 32] ++ (xs ++ sep :: (ys ++ 32 :: (hs ++ 10 :: rest))))
      0 &&& 16777215 = PX_PAT := by
    have hb0 : byteAt ([80, 88, 32] ++ (xs ++ sep :: (ys ++ 32 :: (hs ++ 10 :: rest)))) 0 =
        80 := by rw [byteAt_append_left (by simp)]; rfl
    have hb1 : byteAt ([80, 88, 32] ++ (xs ++ sep :: (ys ++ 32 :: (hs ++ 10 :: rest))))
        (0 + 1) = 88 := by rw [byteAt_append_left (by simp)]; rfl
    have hb2 : byteAt ([80, 88, 32] ++ (xs ++ sep :: (ys ++ 32 :: (hs ++ 10 :: rest))))
        (0 + 2) = 32 := by rw [byteAt_append_left (by simp)]; rfl
    exact (px_guard_iff _ 0 (by rw [hb0]; omega) (by rw [hb1]; omega)
      (by rw [hb2]; omega)).mpr ⟨hb0, hb1, hb2⟩
  have hguard2 : readU64LE ([80, 88, 32] ++ (xs ++ 32 :: (ys ++ 32 :: (hs ++ 10 :: rest))))
      0 &&& 16777215 = PX_PAT := by
    have hb0 : byteAt ([80, 88, 32] ++ (xs ++ 32 :: (ys ++ 32 :: (hs ++ 10 :: rest)))) 0 =
        80 := by rw [byteAt_append_left (by simp)]; rfl
    have hb1 : byteAt ([80, 88, 32] ++ (xs ++ 32 :: (ys ++ 32 :: (hs ++ 10 :: rest))))
        (0 + 1) = 88 := by rw [byteAt_append_left (by simp)]; rfl
    have hb2 : byteAt ([80, 88, 32] ++ (xs ++ 32 :: (ys ++ 32 :: (hs ++ 10 :: rest))))
        (0 + 2) = 32 := by rw [byteAt_append_left (by simp)]; rfl
    exact (px_guard_iff _ 0 (by rw [hb0]; omega) (by rw [hb1]; omega)
      (by rw [hb2]; omega)).mpr ⟨hb0, hb1, hb2⟩
  have e1 := (parseStep_px hguard1).trans
    (pxBody_set_general alpha st fb sink last xs ys hs rest sep hxne hxlen hxd hyne hylen
      hyd hsep hhlen hlane)
  have e2 := (parseStep_px hguard2).trans
    (pxBody_set_general alpha st fb sink last xs ys hs rest 32 hxne hxlen hxd hyne hylen
      hyd (by omega) hhlen hlane)
  exact ⟨e1.trans e2.symm, e1⟩

/-- Witness for C10's amended theorem: `"PX 1A2 ff0000
"` (separator
`'A'`) behaves exactly like `"PX 1 2 ff0000
"` and sets cell (1, 2). -/
theorem c10_any_nondigit_separator_witness :
    parseStep false ([80, 88, 32] ++ ([49] ++ 65 :: ([50] ++ 32 ::
        ([102, 102, 48, 48, 48, 48] ++ 10 :: [0, 0])))) ⟨0, 0⟩ (FrameBuffer.init 8 8)
        Sink.good 0 0 =
      parseStep false ([80, 88, 32] ++ ([49] ++ 32 :: ([50] ++ 32 ::
        ([102, 102, 48, 48, 48, 48] ++ 10 :: [0, 0])))) ⟨0, 0⟩ (FrameBuffer.init 8 8)
        Sink.good 0 0 ∧
    parseStep false ([80, 88, 32] ++ ([49] ++ 65 :: ([50] ++ 32 ::
        ([102, 102, 48, 48, 48, 48] ++ 10 :: [0, 0])))) ⟨0, 0⟩ (FrameBuffer.init 8 8)
        Sink.good 0 0 =
      StepResult.next ⟨0, 0⟩
        ((FrameBuffer.init 8 8).set (decValue [49] + 0) (decValue [50] + 0)
          (hexLane (byteAt [102, 102, 48, 48, 48, 48] 4) * 1048576 +
            hexLane (byteAt [102, 102, 48, 48, 48, 48] 5) * 65536 +
            hexLane (byteAt [102, 102, 48, 48, 48, 48] 2) * 4096 +
            hexLane (byteAt [102, 102, 48, 48, 48, 48] 3) * 256 +
            hexLane (byteAt [102, 102, 48, 48, 48, 48] 0) * 16 +
            hexLane (byteAt [102, 102, 48, 48, 48, 48] 1)))
        Sink.good 13 14 :=
  c10_any_nondigit_separator false ⟨0, 0⟩ (FrameBuffer.init 8 8) Sink.good 0
    [49] [50] [102, 102, 48, 48, 48, 48] [0, 0] 65 (by decide) (by decide) (by decide)
    (by decide) (by decide) (by decide) (by decide) (by decide) (by decide)

end Breakwater
